import Mathlib

/-!
Shallow embedding of the inventory-ledger logic of `app/routes/products.py`
(FastAPI + SQLAlchemy point-of-sale backend).

The relational store is modelled as an explicit `DB` record holding the table
contents and the autoincrement counters.  Each request handler becomes a pure
function `DB → Except ApiError (DB × result)`: a successful request returns the
committed database, a failed request returns only the error — the surrounding
session rolls back, so the pre-call database stays in force (captured by the
`run*` wrappers).  `create_product` is special: the source commits twice, so a
second definition `create_product_firstCommit` exposes the database state that
is durable after the first `db.commit()`.

Monetary amounts (`Float` columns in the source) are modelled as rationals;
`Integer` columns are modelled as `Int`, autoincrement ids as `Nat`, and the
`server_default=func.now()` timestamp as a logical clock `now` carried in `DB`.
-/

namespace Doeat

/-- Row of the `products` table (`models/product.py`, class `Product`). -/
structure Product where
  id : Nat
  name : String
  description : Option String
  price : ℚ
  quantity : Int
deriving Repr, DecidableEq

/-- Row of the `stock_movements` table (`models/product.py`, class `StockMovement`). -/
structure StockMovement where
  id : Nat
  product_id : Nat
  quantity_change : Int
  movement_type : String
  reference : Option String
  notes : Option String
  created_by : Nat
  movement_date : Nat
deriving Repr, DecidableEq

/-- Row of the `sales` table (`models/product.py`, class `Sale`). -/
structure Sale where
  id : Nat
  customer_name : Option String
  total_amount : ℚ
  payment_method : String
  created_by : Nat
  created_at : Nat
deriving Repr, DecidableEq

/-- Row of the `sale_items` table (`models/product.py`, class `SaleItem`). -/
structure SaleItem where
  id : Nat
  sale_id : Nat
  product_id : Nat
  quantity : Int
  unit_price : ℚ
  subtotal : ℚ
deriving Repr, DecidableEq

/-- Row of the `purchases` table (`models/product.py`, class `Purchase`). -/
structure Purchase where
  id : Nat
  supplier_name : String
  total_amount : ℚ
  reference : Option String
  created_by : Nat
  created_at : Nat
deriving Repr, DecidableEq

/-- Row of the `purchase_items` table (`models/product.py`, class `PurchaseItem`). -/
structure PurchaseItem where
  id : Nat
  purchase_id : Nat
  product_id : Nat
  quantity : Int
  unit_price : ℚ
  subtotal : ℚ
deriving Repr, DecidableEq

/-- Request body `StockMovementCreate` (`schemas/product.py`). -/
structure StockMovementCreate where
  product_id : Nat
  quantity_change : Int
  movement_type : String
  reference : Option String
  notes : Option String
deriving Repr, DecidableEq

/-- Request body `ProductUpdate` (`schemas/product.py`); `none` fields are unset
and excluded by `dict(exclude_unset=True)`. -/
structure ProductUpdate where
  name : Option String
  description : Option String
  price : Option ℚ
  quantity : Option Int
deriving Repr, DecidableEq

/-- Request body `SaleItemCreate` (`schemas/product.py`): `quantity` is validated
by pydantic as `gt=0`. -/
structure SaleItemCreate where
  product_id : Nat
  quantity : Int
deriving Repr, DecidableEq

/-- Request body `SaleCreate` (`schemas/product.py`). -/
structure SaleCreate where
  customer_name : Option String
  payment_method : String
  items : List SaleItemCreate
deriving Repr, DecidableEq

/-- Request body `PurchaseItemCreate` (`schemas/product.py`): `quantity` and
`unit_price` are validated as `gt=0`. -/
structure PurchaseItemCreate where
  product_id : Nat
  quantity : Int
  unit_price : ℚ
deriving Repr, DecidableEq

/-- Request body `PurchaseCreate` (`schemas/product.py`). -/
structure PurchaseCreate where
  supplier_name : String
  reference : Option String
  items : List PurchaseItemCreate
deriving Repr, DecidableEq

/-- `HTTPException` outcomes raised by the handlers in `routes/products.py`. -/
inductive ApiError where
  | badRequest (detail : String)
  | notFound (detail : String)
deriving Repr, DecidableEq

/-- The relational store: table contents, autoincrement counters, and the
logical clock feeding `server_default=func.now()`. -/
structure DB where
  products : List Product
  movements : List StockMovement
  sales : List Sale
  sale_items : List SaleItem
  purchases : List Purchase
  purchase_items : List PurchaseItem
  nextProductId : Nat
  nextMovementId : Nat
  nextSaleId : Nat
  nextSaleItemId : Nat
  nextPurchaseId : Nat
  nextPurchaseItemId : Nat
  now : Nat
deriving Repr, DecidableEq

/-- A freshly initialised database (autoincrement ids start at 1). -/
def DB.empty : DB :=
  ⟨[], [], [], [], [], [], 1, 1, 1, 1, 1, 1, 0⟩

/-- `db.query(Product).filter(Product.id == pid).first()`. -/
def DB.findProduct (db : DB) (pid : Nat) : Option Product :=
  db.products.find? (fun p => p.id == pid)

/-- `db.query(Product).filter(Product.name == name).first()`. -/
def DB.findProductByName (db : DB) (name : String) : Option Product :=
  db.products.find? (fun p => p.name == name)

/-- In-place mutation of an ORM `Product` row: every row with the given id is
rewritten by `f` (primary-key uniqueness makes this at most one row). -/
def updateRow (f : Product → Product) (pid : Nat) (ps : List Product) : List Product :=
  ps.map (fun p => if p.id = pid then f p else p)

/-- Sum of `quantity_change` over the movements of `pid` in a movement list. -/
def movementSumList (l : List StockMovement) (pid : Nat) : Int :=
  ((l.filter (fun m => m.product_id == pid)).map (fun m => m.quantity_change)).sum

/-- `Σ movement.quantity_change` over the stored movements of product `pid`. -/
def movementSum (db : DB) (pid : Nat) : Int :=
  movementSumList db.movements pid

/-- Number of stored movements of product `pid`. -/
def movementCount (db : DB) (pid : Nat) : Nat :=
  (db.movements.filter (fun m => m.product_id == pid)).length

/-- Cached quantity of product `pid` (0 when the product is absent). -/
def productQty (db : DB) (pid : Nat) : Int :=
  ((db.findProduct pid).map (fun p => p.quantity)).getD 0

/-- Handler `create_product` (`routes/products.py`, lines 31-68).  The source
issues two commits: the product row is committed first, then (for nonzero
starting quantity) the `inventario_inicial` movement is committed.  This
definition returns the state after the final commit. -/
def create_product (db : DB) (userId : Nat) (name : String)
    (description : Option String) (price : ℚ) (quantity : Int) :
    Except ApiError (DB × Product) :=
  match db.findProductByName name with
  | some _ => .error (.badRequest "Ya existe un producto con ese nombre")
  | none =>
    let p : Product := ⟨db.nextProductId, name, description, price, quantity⟩
    let db1 : DB := { db with
      products := db.products ++ [p]
      nextProductId := db.nextProductId + 1 }
    if 0 < quantity then
      let m : StockMovement :=
        ⟨db1.nextMovementId, p.id, quantity, "inventario_inicial", none,
          some "Inventario inicial al crear el producto", userId, db1.now⟩
      .ok ({ db1 with
        movements := db1.movements ++ [m]
        nextMovementId := db1.nextMovementId + 1
        now := db1.now + 1 }, p)
    else
      .ok ({ db1 with now := db1.now + 1 }, p)

/-- The database state durable after the first `db.commit()` of
`create_product` (`routes/products.py`, line 53) — the product row is
committed, the initial stock movement is not yet written. -/
def create_product_firstCommit (db : DB) (name : String)
    (description : Option String) (price : ℚ) (quantity : Int) :
    Except ApiError DB :=
  match db.findProductByName name with
  | some _ => .error (.badRequest "Ya existe un producto con ese nombre")
  | none =>
    let p : Product := ⟨db.nextProductId, name, description, price, quantity⟩
    .ok { db with
      products := db.products ++ [p]
      nextProductId := db.nextProductId + 1 }

/-- Handler `create_stock_movement` (`routes/products.py`, lines 201-238):
apply a signed quantity delta to a product and record the movement. -/
def create_stock_movement (db : DB) (userId : Nat) (m : StockMovementCreate) :
    Except ApiError (DB × StockMovement) :=
  match db.findProduct m.product_id with
  | none => .error (.notFound "Producto no encontrado")
  | some product =>
    if m.quantity_change < 0 ∧ product.quantity + m.quantity_change < 0 then
      .error (.badRequest "No hay suficiente stock para realizar esta operación")
    else
      let mov : StockMovement :=
        ⟨db.nextMovementId, m.product_id, m.quantity_change, m.movement_type,
          m.reference, m.notes, userId, db.now⟩
      .ok ({ db with
        products := updateRow
          (fun p => { p with quantity := p.quantity + m.quantity_change })
          m.product_id db.products
        movements := db.movements ++ [mov]
        nextMovementId := db.nextMovementId + 1
        now := db.now + 1 }, mov)

/-- The `setattr` loop of `update_product`: overwrite exactly the fields
present in `product_data.dict(exclude_unset=True)`. -/
def applyProductUpdate (u : ProductUpdate) (p : Product) : Product :=
  { p with
    name := u.name.getD p.name
    description := match u.description with
      | some d => some d
      | none => p.description
    price := u.price.getD p.price
    quantity := u.quantity.getD p.quantity }

/-- The duplicate-name guard of `update_product`:
`if product_data.name and product_data.name != product.name: ...`. -/
def nameConflict (db : DB) (u : ProductUpdate) (product : Product) : Bool :=
  match u.name with
  | some n => n != product.name && (db.findProductByName n).isSome
  | none => false

/-- Handler `update_product` (`routes/products.py`, lines 120-166): edit a
product; a quantity change is recorded as an `ajuste` movement. -/
def update_product (db : DB) (userId : Nat) (pid : Nat) (u : ProductUpdate) :
    Except ApiError (DB × Product) :=
  match db.findProduct pid with
  | none => .error (.notFound "Producto no encontrado")
  | some product =>
    if nameConflict db u product then
      .error (.badRequest "Ya existe un producto con ese nombre")
    else
      let old_quantity := product.quantity
      let newMovs : List StockMovement :=
        match u.quantity with
        | some q =>
          if q ≠ old_quantity then
            [⟨db.nextMovementId, pid, q - old_quantity, "ajuste", none,
              some ("Ajuste manual: " ++ toString old_quantity ++ " -> " ++ toString q),
              userId, db.now⟩]
          else []
        | none => []
      .ok ({ db with
        products := updateRow (applyProductUpdate u) pid db.products
        movements := db.movements ++ newMovs
        nextMovementId := db.nextMovementId + newMovs.length
        now := db.now + 1 }, applyProductUpdate u product)

/-- Total quantity demanded from product `pid` by the lines of a sale. -/
def salesDemand (items : List SaleItemCreate) (pid : Nat) : Int :=
  ((items.filter (fun it => it.product_id == pid)).map (fun it => it.quantity)).sum

/-- The per-item loop body of `create_sale` (`routes/products.py`, lines
303-348), iterated over the remaining items: look the product up in the
session, check stock, append the `sale_items` row, decrement the cached
quantity, append the `venta` movement, and accumulate the running total. -/
def processSaleItems (saleId userId ts : Nat) :
    DB → ℚ → List SaleItemCreate → Except ApiError (DB × ℚ)
  | db, total, [] => .ok (db, total)
  | db, total, item :: rest =>
    match db.findProduct item.product_id with
    | none => .error (.notFound
        ("Producto con ID " ++ toString item.product_id ++ " no encontrado"))
    | some product =>
      if product.quantity < item.quantity then
        .error (.badRequest
          ("Stock insuficiente para el producto '" ++ product.name ++ "'"))
      else
        let subtotal : ℚ := product.price * (item.quantity : ℚ)
        let si : SaleItem :=
          ⟨db.nextSaleItemId, saleId, product.id, item.quantity, product.price, subtotal⟩
        let mov : StockMovement :=
          ⟨db.nextMovementId, product.id, -item.quantity, "venta",
            some ("Venta #" ++ toString saleId), none, userId, ts⟩
        let db1 : DB := { db with
          sale_items := db.sale_items ++ [si]
          nextSaleItemId := db.nextSaleItemId + 1
          products := updateRow
            (fun p => { p with quantity := p.quantity - item.quantity })
            product.id db.products
          movements := db.movements ++ [mov]
          nextMovementId := db.nextMovementId + 1 }
        processSaleItems saleId userId ts db1 (total + subtotal) rest

/-- Handler `create_sale` (`routes/products.py`, lines 277-356): one atomic
unit of work — on any line failure the session is rolled back and only the
error escapes. -/
def create_sale (db : DB) (userId : Nat) (s : SaleCreate) :
    Except ApiError (DB × Sale) :=
  if s.items.isEmpty then
    .error (.badRequest "La venta debe tener al menos un producto")
  else
    let saleId := db.nextSaleId
    let header : Sale := ⟨saleId, s.customer_name, 0, s.payment_method, userId, db.now⟩
    let db0 : DB := { db with
      sales := db.sales ++ [header]
      nextSaleId := saleId + 1 }
    match processSaleItems saleId userId db.now db0 0 s.items with
    | .error e => .error e
    | .ok (db1, total) =>
      .ok ({ db1 with
        sales := db1.sales.map
          (fun sl => if sl.id = saleId then { sl with total_amount := total } else sl)
        now := db1.now + 1 }, { header with total_amount := total })

/-- The database observed after a `create_sale` request: the committed state on
success, the pre-call state on failure (`db.rollback()` before every raise). -/
def runSale (db : DB) (userId : Nat) (s : SaleCreate) : DB :=
  match create_sale db userId s with
  | .ok (db', _) => db'
  | .error _ => db

/-- The database observed after a `create_stock_movement` request (the session
of a failed request is rolled back before anything was written). -/
def runStockMovement (db : DB) (userId : Nat) (m : StockMovementCreate) : DB :=
  match create_stock_movement db userId m with
  | .ok (db', _) => db'
  | .error _ => db

/-- The per-item loop body of `create_purchase` (`routes/products.py`, lines
440-477), iterated over the remaining items: no stock check, the caller's
`unit_price` prices the line, and the delta is the (positive) quantity. -/
def processPurchaseItems (purchaseId userId ts : Nat) :
    DB → ℚ → List PurchaseItemCreate → Except ApiError (DB × ℚ)
  | db, total, [] => .ok (db, total)
  | db, total, item :: rest =>
    match db.findProduct item.product_id with
    | none => .error (.notFound
        ("Producto con ID " ++ toString item.product_id ++ " no encontrado"))
    | some product =>
      let subtotal : ℚ := item.unit_price * (item.quantity : ℚ)
      let pi : PurchaseItem :=
        ⟨db.nextPurchaseItemId, purchaseId, product.id, item.quantity,
          item.unit_price, subtotal⟩
      let mov : StockMovement :=
        ⟨db.nextMovementId, product.id, item.quantity, "compra",
          some ("Compra #" ++ toString purchaseId), none, userId, ts⟩
      let db1 : DB := { db with
        purchase_items := db.purchase_items ++ [pi]
        nextPurchaseItemId := db.nextPurchaseItemId + 1
        products := updateRow
          (fun p => { p with quantity := p.quantity + item.quantity })
          product.id db.products
        movements := db.movements ++ [mov]
        nextMovementId := db.nextMovementId + 1 }
      processPurchaseItems purchaseId userId ts db1 (total + subtotal) rest

/-- Handler `create_purchase` (`routes/products.py`, lines 414-485). -/
def create_purchase (db : DB) (userId : Nat) (pu : PurchaseCreate) :
    Except ApiError (DB × Purchase) :=
  if pu.items.isEmpty then
    .error (.badRequest "La compra debe tener al menos un producto")
  else
    let purchaseId := db.nextPurchaseId
    let header : Purchase :=
      ⟨purchaseId, pu.supplier_name, 0, pu.reference, userId, db.now⟩
    let db0 : DB := { db with
      purchases := db.purchases ++ [header]
      nextPurchaseId := purchaseId + 1 }
    match processPurchaseItems purchaseId userId db.now db0 0 pu.items with
    | .error e => .error e
    | .ok (db1, total) =>
      .ok ({ db1 with
        purchases := db1.purchases.map
          (fun h => if h.id = purchaseId then { h with total_amount := total } else h)
        now := db1.now + 1 }, { header with total_amount := total })

/-- Python truthiness of the optional `product_id` query parameter
(`if product_id:`): `None` and `0` both skip the filter. -/
def truthyNat : Option Nat → Bool
  | some n => n != 0
  | none => false

/-- Python truthiness of the optional `movement_type` query parameter
(`if movement_type:`): `None` and `""` both skip the filter. -/
def truthyStr : Option String → Bool
  | some s => s != ""
  | none => false

/-- Comparator realising `order_by(StockMovement.movement_date.desc())`:
most recent first.  (SQL fixes only the key order, not the tie order; any
correct sort models it, and insertion sort is used because it evaluates.) -/
def dateDesc (a b : StockMovement) : Prop :=
  b.movement_date ≤ a.movement_date

instance : DecidableRel dateDesc :=
  fun a b => Nat.decLe b.movement_date a.movement_date

instance : IsTotal StockMovement dateDesc :=
  ⟨fun a b => Nat.le_total b.movement_date a.movement_date⟩

instance : IsTrans StockMovement dateDesc :=
  ⟨fun _ _ _ hab hbc => Nat.le_trans hbc hab⟩

/-- The filtered and ordered query built by `get_stock_movements`
(`routes/products.py`, lines 254-263), before `offset/limit` are applied. -/
def stockMovementsQuery (db : DB) (product_id : Option Nat)
    (movement_type : Option String) : List StockMovement :=
  let q1 := if truthyNat product_id then
      db.movements.filter (fun m => m.product_id == product_id.getD 0)
    else db.movements
  let q2 := if truthyStr movement_type then
      q1.filter (fun m => m.movement_type == movement_type.getD "")
    else q1
  List.insertionSort dateDesc q2

/-- Handler `get_stock_movements` (`routes/products.py`, lines 246-266):
filters, descending date order, then `offset(skip).limit(limit)`. -/
def get_stock_movements (db : DB) (product_id : Option Nat)
    (movement_type : Option String) (skip limit : Nat) : List StockMovement :=
  ((stockMovementsQuery db product_id movement_type).drop skip).take limit

/-- A ledger-affecting request, with its authenticated user. -/
inductive Op where
  | createProduct (userId : Nat) (name : String) (description : Option String)
      (price : ℚ) (quantity : Int)
  | stockMovement (userId : Nat) (m : StockMovementCreate)
  | updateProduct (userId : Nat) (pid : Nat) (u : ProductUpdate)
  | sale (userId : Nat) (s : SaleCreate)
  | purchase (userId : Nat) (pu : PurchaseCreate)

/-- The pydantic validation each request body passes before its handler runs
(`schemas/product.py`: `ProductCreate.quantity ge=0`, `SaleItemCreate.quantity
gt=0`, `PurchaseItemCreate.quantity gt=0`, `ProductUpdate.quantity ge=0`). -/
def Op.valid : Op → Prop
  | .createProduct _ _ _ _ quantity => 0 ≤ quantity
  | .stockMovement _ _ => True
  | .updateProduct _ _ u => ∀ q, u.quantity = some q → 0 ≤ q
  | .sale _ s => ∀ it ∈ s.items, 0 < it.quantity
  | .purchase _ pu => ∀ it ∈ pu.items, 0 < it.quantity

/-- One request against the store: the committed state on success, the rolled
back (pre-call) state on failure. -/
def step (db : DB) : Op → DB
  | .createProduct u n d pr q =>
    match create_product db u n d pr q with
    | .ok (db', _) => db'
    | .error _ => db
  | .stockMovement u m =>
    match create_stock_movement db u m with
    | .ok (db', _) => db'
    | .error _ => db
  | .updateProduct u pid upd =>
    match update_product db u pid upd with
    | .ok (db', _) => db'
    | .error _ => db
  | .sale u s =>
    match create_sale db u s with
    | .ok (db', _) => db'
    | .error _ => db
  | .purchase u pu =>
    match create_purchase db u pu with
    | .ok (db', _) => db'
    | .error _ => db

/-- Run a sequence of requests against a store. -/
def run (db : DB) (ops : List Op) : DB :=
  ops.foldl step db

/-! ### Helper lemmas -/

theorem movementSumList_append (l1 l2 : List StockMovement) (pid : Nat) :
    movementSumList (l1 ++ l2) pid = movementSumList l1 pid + movementSumList l2 pid := by
  simp [movementSumList, List.filter_append]

theorem movementSumList_singleton (m : StockMovement) (pid : Nat) :
    movementSumList [m] pid = if m.product_id = pid then m.quantity_change else 0 := by
  by_cases h : m.product_id = pid <;> simp [movementSumList, h]

theorem salesDemand_cons (it : SaleItemCreate) (rest : List SaleItemCreate) (pid : Nat) :
    salesDemand (it :: rest) pid =
      (if it.product_id = pid then it.quantity else 0) + salesDemand rest pid := by
  by_cases h : it.product_id = pid <;> simp [salesDemand, h]

theorem salesDemand_nonneg (items : List SaleItemCreate) (pid : Nat)
    (h : ∀ it ∈ items, 0 < it.quantity) : 0 ≤ salesDemand items pid := by
  induction items with
  | nil => simp [salesDemand]
  | cons it rest ih =>
    rw [salesDemand_cons]
    have h1 : 0 ≤ salesDemand rest pid := ih (fun x hx => h x (List.mem_cons_of_mem _ hx))
    have h2 : (0:Int) ≤ if it.product_id = pid then it.quantity else 0 := by
      split
      · exact le_of_lt (h it (List.mem_cons_self _ _))
      · exact le_refl 0
    omega

theorem salesDemand_eq_zero (items : List SaleItemCreate) (pid : Nat)
    (h : ∀ it ∈ items, it.product_id ≠ pid) : salesDemand items pid = 0 := by
  induction items with
  | nil => simp [salesDemand]
  | cons it rest ih =>
    rw [salesDemand_cons]
    rw [if_neg (h it (List.mem_cons_self _ _)), ih (fun x hx => h x (List.mem_cons_of_mem _ hx))]
    simp

/-- `find?` by id commutes with an id-preserving row rewrite. -/
theorem find?_map_id_preserving (g : Product → Product) (hg : ∀ p, (g p).id = p.id)
    (x : Nat) (ps : List Product) :
    (ps.map g).find? (fun p => p.id == x) =
      (ps.find? (fun p => p.id == x)).map g := by
  rw [List.find?_map]
  have hpred : ((fun p => p.id == x) ∘ g) = (fun p => p.id == x) := by
    funext p
    simp [Function.comp, hg]
  rw [hpred]

theorem updateRow_find? (f : Product → Product) (hf : ∀ p, (f p).id = p.id)
    (pid x : Nat) (ps : List Product) :
    (updateRow f pid ps).find? (fun p => p.id == x) =
      (ps.find? (fun p => p.id == x)).map (fun p => if p.id = pid then f p else p) := by
  unfold updateRow
  exact find?_map_id_preserving _ (fun p => by by_cases h : p.id = pid <;> simp [h, hf]) x ps

theorem applyProductUpdate_id (u : ProductUpdate) (p : Product) :
    (applyProductUpdate u p).id = p.id := rfl

/-- A store holding one product (id 1, price 10, cached quantity 3) together
with its initial movement, as `create_product` would have left it. -/
def dbA : DB :=
  ⟨[⟨1, "A", none, 10, 3⟩],
   [⟨1, 1, 3, "inventario_inicial", none,
     some "Inventario inicial al crear el producto", 1, 0⟩],
   [], [], [], [], 2, 2, 1, 1, 1, 1, 1⟩

/-- Relation between a requested sale line and the pair of rows (sale item,
stock movement) it produced, phrased against the pre-call store `db`. -/
def saleLineRel (db : DB) (sid : Nat) (it : SaleItemCreate)
    (pr : SaleItem × StockMovement) : Prop :=
  ∃ p, db.findProduct it.product_id = some p ∧
    pr.1.sale_id = sid ∧
    pr.1.product_id = it.product_id ∧
    pr.1.quantity = it.quantity ∧
    pr.1.unit_price = p.price ∧
    pr.1.subtotal = p.price * (it.quantity : ℚ) ∧
    pr.2.product_id = it.product_id ∧
    pr.2.quantity_change = -it.quantity ∧
    pr.2.movement_type = "venta" ∧
    pr.2.reference = some ("Venta #" ++ toString sid)

theorem saleLineRel_transport (db db1 : DB) (sid key : Nat) (dq : Int)
    (hprod : db1.products =
      updateRow (fun p => { p with quantity := p.quantity - dq }) key db.products) :
    ∀ it pr, saleLineRel db1 sid it pr → saleLineRel db sid it pr := by
  rintro it pr ⟨p1, hfp1, hrest⟩
  have hmap : db1.findProduct it.product_id =
      (db.findProduct it.product_id).map
        (fun p => if p.id = key then { p with quantity := p.quantity - dq } else p) := by
    unfold DB.findProduct
    rw [hprod]
    exact updateRow_find? _ (fun p => by by_cases h : p.id = key <;> simp [h])
      key it.product_id db.products
  rw [hmap] at hfp1
  obtain ⟨p0, hp0, hp1⟩ := Option.map_eq_some'.mp hfp1
  have hprice : p1.price = p0.price := by
    rw [← hp1]
    by_cases h : p0.id = key <;> simp [h]
  rw [hprice] at hrest
  exact ⟨p0, hp0, hrest⟩

/-- Everything `create_sale`'s per-item loop guarantees when it reaches the end
of the item list without raising. -/
theorem processSaleItems_ok_spec (sid uid ts : Nat) (items : List SaleItemCreate) :
    ∀ (db : DB) (total : ℚ) (db2 : DB) (total2 : ℚ),
    processSaleItems sid uid ts db total items = Except.ok (db2, total2) →
    ∃ sis mvs,
      db2.products = db.products.map
        (fun p => { p with quantity := p.quantity - salesDemand items p.id }) ∧
      db2.movements = db.movements ++ mvs ∧
      db2.sale_items = db.sale_items ++ sis ∧
      db2.sales = db.sales ∧
      db2.purchases = db.purchases ∧
      db2.purchase_items = db.purchase_items ∧
      db2.nextProductId = db.nextProductId ∧
      db2.nextSaleId = db.nextSaleId ∧
      db2.now = db.now ∧
      total2 = total + (sis.map (fun si => si.subtotal)).sum ∧
      List.Forall₂ (saleLineRel db sid) items (sis.zip mvs) ∧
      sis.length = items.length ∧
      mvs.length = items.length ∧
      (∀ pid, movementSum db2 pid = movementSum db pid - salesDemand items pid) ∧
      (∀ it ∈ items, (db.findProduct it.product_id).isSome) ∧
      (∀ m ∈ mvs, ∃ p ∈ db.products, p.id = m.product_id) := by
  induction items with
  | nil =>
    intro db total db2 total2 h
    simp only [processSaleItems] at h
    rw [Except.ok.injEq, Prod.mk.injEq] at h
    obtain ⟨h1, h2⟩ := h
    subst h1
    subst h2
    refine ⟨[], [], ?_, by simp, by simp, rfl, rfl, rfl, rfl, rfl, rfl, by simp, ?_, rfl, rfl,
      ?_, by simp, by simp⟩
    · have : (fun p : Product => { p with quantity := p.quantity - salesDemand [] p.id }) =
          (fun p : Product => p) := by
        funext p
        simp [salesDemand]
      rw [this, List.map_id']
    · exact List.Forall₂.nil
    · intro pid
      simp [salesDemand]
  | cons item rest ih =>
    intro db total db2 total2 h
    rw [show processSaleItems sid uid ts db total (item :: rest) =
      (match db.findProduct item.product_id with
      | none => .error (.notFound
          ("Producto con ID " ++ toString item.product_id ++ " no encontrado"))
      | some product =>
        if product.quantity < item.quantity then
          .error (.badRequest
            ("Stock insuficiente para el producto '" ++ product.name ++ "'"))
        else
          processSaleItems sid uid ts
            { db with
              sale_items := db.sale_items ++
                [⟨db.nextSaleItemId, sid, product.id, item.quantity, product.price,
                  product.price * (item.quantity : ℚ)⟩]
              nextSaleItemId := db.nextSaleItemId + 1
              products := updateRow
                (fun p => { p with quantity := p.quantity - item.quantity })
                product.id db.products
              movements := db.movements ++
                [⟨db.nextMovementId, product.id, -item.quantity, "venta",
                  some ("Venta #" ++ toString sid), none, uid, ts⟩]
              nextMovementId := db.nextMovementId + 1 }
            (total + product.price * (item.quantity : ℚ)) rest) from rfl] at h
    cases hfp : db.findProduct item.product_id with
    | none => rw [hfp] at h; cases h
    | some product =>
      rw [hfp] at h
      simp only at h
      by_cases hstock : product.quantity < item.quantity
      · rw [if_pos hstock] at h; cases h
      rw [if_neg hstock] at h
      have hfp' : db.products.find? (fun p => p.id == item.product_id) = some product := hfp
      have hpid : product.id = item.product_id := by
        simpa using List.find?_some hfp'
      have hmem : product ∈ db.products := List.mem_of_find?_eq_some hfp'
      obtain ⟨sis, mvs, hprod, hmov, hsi, hsales, hpur, hpuri, hnpi, hnsi, hnow, htot,
        hrel, hlen1, hlen2, hmsum, hisome, hmvmem⟩ := ih _ _ _ _ h
      set si : SaleItem :=
        ⟨db.nextSaleItemId, sid, product.id, item.quantity, product.price,
          product.price * (item.quantity : ℚ)⟩ with hsi_def
      set mov : StockMovement :=
        ⟨db.nextMovementId, product.id, -item.quantity, "venta",
          some ("Venta #" ++ toString sid), none, uid, ts⟩ with hmov_def
      refine ⟨si :: sis, mov :: mvs, ?_, ?_, ?_, hsales, hpur, hpuri, hnpi, hnsi, hnow,
        ?_, ?_, ?_, ?_, ?_, ?_, ?_⟩
      · rw [hprod]
        show (updateRow (fun p => { p with quantity := p.quantity - item.quantity })
            product.id db.products).map _ = _
        unfold updateRow
        rw [List.map_map]
        apply List.map_congr_left
        intro p _
        by_cases hp : p.id = product.id
        · have hip : item.product_id = p.id := by rw [← hpid, hp]
          simp only [Function.comp_apply, if_pos hp]
          rw [salesDemand_cons, if_pos hip]
          simp only [Product.mk.injEq, true_and]
          omega
        · have hip : item.product_id ≠ p.id := by
            rw [← hpid]
            exact fun hh => hp hh.symm
          simp only [Function.comp_apply, if_neg hp]
          rw [salesDemand_cons, if_neg hip]
          simp
      · rw [hmov]
        show (db.movements ++ [mov]) ++ mvs = _
        rw [List.append_assoc]
        rfl
      · rw [hsi]
        show (db.sale_items ++ [si]) ++ sis = _
        rw [List.append_assoc]
        rfl
      · rw [htot]
        show total + product.price * (item.quantity : ℚ) +
          (List.map (fun x => x.subtotal) sis).sum = _
        rw [List.map_cons, List.sum_cons]
        show _ = total + (product.price * (item.quantity : ℚ) + _)
        ring
      · show List.Forall₂ _ (item :: rest) ((si, mov) :: sis.zip mvs)
        refine List.Forall₂.cons ?_ ?_
        · exact ⟨product, hfp, rfl, hpid, rfl, rfl, rfl, hpid, rfl, rfl, rfl⟩
        · exact List.Forall₂.imp
            (saleLineRel_transport db _ sid product.id item.quantity rfl) hrel
      · simp [hlen1]
      · simp [hlen2]
      · intro pid
        rw [hmsum pid]
        show movementSumList (db.movements ++ [mov]) pid - salesDemand rest pid = _
        rw [movementSumList_append, movementSumList_singleton, salesDemand_cons]
        show movementSum db pid +
            (if mov.product_id = pid then mov.quantity_change else 0) -
            salesDemand rest pid = _
        have hmovpid : mov.product_id = product.id := rfl
        have hmovqc : mov.quantity_change = -item.quantity := rfl
        by_cases hc : item.product_id = pid
        · rw [if_pos (by rw [hmovpid, hpid, hc]), if_pos hc, hmovqc]
          omega
        · rw [if_neg (by rw [hmovpid, hpid]; exact hc), if_neg hc]
          omega
      · intro it hit
        rcases List.mem_cons.mp hit with hh | hmem'
        · subst hh
          rw [hfp]
          rfl
        · have h1 := hisome it hmem'
          have hmapfp : (updateRow
              (fun p => { p with quantity := p.quantity - item.quantity })
              product.id db.products).find? (fun p => p.id == it.product_id) =
              (db.products.find? (fun p => p.id == it.product_id)).map
                (fun p => if p.id = product.id then
                  { p with quantity := p.quantity - item.quantity } else p) :=
            updateRow_find? _ (fun p => by by_cases hh : p.id = product.id <;> simp [hh]) _ _ _
          have h2 : ((db.products.find? (fun p => p.id == it.product_id)).map
              (fun p => if p.id = product.id then
                { p with quantity := p.quantity - item.quantity } else p)).isSome := by
            rw [← hmapfp]
            exact h1
          cases hdb : db.products.find? (fun p => p.id == it.product_id) with
          | none =>
            rw [hdb] at h2
            simp at h2
          | some p0 =>
            show (db.findProduct it.product_id).isSome = true
            have hsome : db.findProduct it.product_id = some p0 := hdb
            rw [hsome]
            rfl
      · intro m hm
        rcases List.mem_cons.mp hm with hh | hm'
        · subst hh
          exact ⟨product, hmem, rfl⟩
        · obtain ⟨p1, hp1mem, hp1id⟩ := hmvmem m hm'
          have hp1mem' : p1 ∈ (updateRow
              (fun p => { p with quantity := p.quantity - item.quantity })
              product.id db.products) := hp1mem
          unfold updateRow at hp1mem'
          obtain ⟨p0, hp0mem, hp0eq⟩ := List.mem_map.mp hp1mem'
          refine ⟨p0, hp0mem, ?_⟩
          have hid01 : p0.id = p1.id := by
            rw [← hp0eq]
            by_cases hh : p0.id = product.id <;> simp [hh]
          rw [hid01, hp1id]

/-- The store after one successful iteration of `create_sale`'s item loop. -/
def saleStepDB (db : DB) (sid uid ts : Nat) (item : SaleItemCreate)
    (product : Product) : DB :=
  { db with
    sale_items := db.sale_items ++
      [⟨db.nextSaleItemId, sid, product.id, item.quantity, product.price,
        product.price * (item.quantity : ℚ)⟩]
    nextSaleItemId := db.nextSaleItemId + 1
    products := updateRow
      (fun p => { p with quantity := p.quantity - item.quantity })
      product.id db.products
    movements := db.movements ++
      [⟨db.nextMovementId, product.id, -item.quantity, "venta",
        some ("Venta #" ++ toString sid), none, uid, ts⟩]
    nextMovementId := db.nextMovementId + 1 }

theorem processSaleItems_cons (sid uid ts : Nat) (db : DB) (total : ℚ)
    (item : SaleItemCreate) (rest : List SaleItemCreate) :
    processSaleItems sid uid ts db total (item :: rest) =
      match db.findProduct item.product_id with
      | none => .error (.notFound
          ("Producto con ID " ++ toString item.product_id ++ " no encontrado"))
      | some product =>
        if product.quantity < item.quantity then
          .error (.badRequest
            ("Stock insuficiente para el producto '" ++ product.name ++ "'"))
        else
          processSaleItems sid uid ts (saleStepDB db sid uid ts item product)
            (total + product.price * (item.quantity : ℚ)) rest := rfl

theorem findProduct_saleStep_isSome (db : DB) (sid uid ts : Nat)
    (item : SaleItemCreate) (product : Product) (x : Nat) :
    ((saleStepDB db sid uid ts item product).findProduct x).isSome =
      (db.findProduct x).isSome := by
  show ((updateRow (fun p => { p with quantity := p.quantity - item.quantity })
      product.id db.products).find? (fun p => p.id == x)).isSome =
    (db.products.find? (fun p => p.id == x)).isSome
  rw [updateRow_find? _ (fun p => by by_cases hh : p.id = product.id <;> simp [hh]) _ _ _]
  cases db.products.find? (fun p => p.id == x) <;> rfl

theorem productQty_saleStep (db : DB) (sid uid ts : Nat) (item : SaleItemCreate)
    (product : Product) (hfp : db.findProduct item.product_id = some product) (pid : Nat) :
    productQty (saleStepDB db sid uid ts item product) pid =
      productQty db pid - (if item.product_id = pid then item.quantity else 0) := by
  have hfp' : db.products.find? (fun p => p.id == item.product_id) = some product := hfp
  have hpid : product.id = item.product_id := by
    simpa using List.find?_some hfp'
  show (((updateRow (fun p => { p with quantity := p.quantity - item.quantity })
      product.id db.products).find? (fun p => p.id == pid)).map
      (fun p => p.quantity)).getD 0 = _
  rw [updateRow_find? _ (fun p => by by_cases hh : p.id = product.id <;> simp [hh]) _ _ _]
  cases hdb : db.products.find? (fun p => p.id == pid) with
  | none =>
    have hne : item.product_id ≠ pid := by
      intro hh
      rw [hh] at hfp'
      rw [hfp'] at hdb
      cases hdb
    have : productQty db pid = 0 := by
      unfold productQty DB.findProduct
      rw [hdb]
      rfl
    rw [this, if_neg hne]
    rfl
  | some p0 =>
    have hp0id : p0.id = pid := by
      simpa using List.find?_some hdb
    have hqdb : productQty db pid = p0.quantity := by
      unfold productQty DB.findProduct
      rw [hdb]
      rfl
    rw [hqdb]
    by_cases hc : item.product_id = pid
    · rw [if_pos hc]
      have : p0.id = product.id := by rw [hp0id, hpid, hc]
      simp [this]
    · rw [if_neg hc]
      have : p0.id ≠ product.id := by
        rw [hp0id, hpid]
        exact fun hh => hc hh.symm
      simp [this]

/-- Success characterisation of `create_sale`'s item loop: with every line
referencing an existing product and positive line quantities, the loop reaches
the end (and the sale commits) exactly when, for every line, the pre-call
quantity of its product covers the total demand of that product across the
whole item list — each line's check observes the decrements of the preceding
lines. -/
theorem processSaleItems_isOk_iff (sid uid ts : Nat) (items : List SaleItemCreate) :
    ∀ (db : DB) (total : ℚ),
    (∀ it ∈ items, (db.findProduct it.product_id).isSome) →
    (∀ it ∈ items, 0 < it.quantity) →
    ((∃ r, processSaleItems sid uid ts db total items = Except.ok r) ↔
      ∀ it ∈ items, salesDemand items it.product_id ≤ productQty db it.product_id) := by
  induction items with
  | nil =>
    intro db total _ _
    constructor
    · intro _ it hit
      cases hit
    · intro _
      exact ⟨(db, total), rfl⟩
  | cons item rest ih =>
    intro db total hex hpos
    have hexi := hex item (List.mem_cons_self _ _)
    obtain ⟨product, hfp⟩ := Option.isSome_iff_exists.mp hexi
    have hfp' : db.products.find? (fun p => p.id == item.product_id) = some product := hfp
    have hpid : product.id = item.product_id := by
      simpa using List.find?_some hfp'
    have hQ : productQty db item.product_id = product.quantity := by
      unfold productQty DB.findProduct
      rw [hfp']
      rfl
    have hposr : ∀ it ∈ rest, 0 < it.quantity :=
      fun it hit => hpos it (List.mem_cons_of_mem _ hit)
    rw [processSaleItems_cons, hfp]
    simp only
    by_cases hstock : product.quantity < item.quantity
    · rw [if_pos hstock]
      constructor
      · rintro ⟨r, hr⟩
        cases hr
      · intro hall
        exfalso
        have h1 := hall item (List.mem_cons_self _ _)
        have hd : salesDemand (item :: rest) item.product_id =
            item.quantity + salesDemand rest item.product_id := by
          rw [salesDemand_cons, if_pos rfl]
        have hnn : 0 ≤ salesDemand rest item.product_id := salesDemand_nonneg _ _ hposr
        rw [hd, hQ] at h1
        omega
    · rw [if_neg hstock]
      have hex' : ∀ it ∈ rest,
          ((saleStepDB db sid uid ts item product).findProduct it.product_id).isSome := by
        intro it hit
        rw [findProduct_saleStep_isSome]
        exact hex it (List.mem_cons_of_mem _ hit)
      rw [ih _ _ hex' hposr]
      constructor
      · intro hall it' hit'
        rcases List.mem_cons.mp hit' with hh | hmem'
        · subst hh
          rw [salesDemand_cons, if_pos rfl, hQ]
          by_cases hrest : ∃ it'' ∈ rest, it''.product_id = it'.product_id
          · obtain ⟨it'', hit'', hid''⟩ := hrest
            have h2 := hall it'' hit''
            rw [productQty_saleStep db sid uid ts it' product hfp, hid''] at h2
            rw [if_pos rfl, hQ] at h2
            omega
          · have hz : salesDemand rest it'.product_id = 0 := by
              apply salesDemand_eq_zero
              intro x hx hxeq
              exact hrest ⟨x, hx, hxeq⟩
            rw [hz]
            omega
        · have h2 := hall it' hmem'
          rw [productQty_saleStep db sid uid ts item product hfp] at h2
          rw [salesDemand_cons]
          by_cases hc : item.product_id = it'.product_id
          · rw [if_pos hc] at h2 ⊢
            omega
          · rw [if_neg hc] at h2 ⊢
            omega
      · intro hall it' hit'
        have h2 := hall it' (List.mem_cons_of_mem _ hit')
        rw [salesDemand_cons] at h2
        rw [productQty_saleStep db sid uid ts item product hfp]
        by_cases hc : item.product_id = it'.product_id
        · rw [if_pos hc] at h2 ⊢
          omega
        · rw [if_neg hc] at h2 ⊢
          omega

/-- Total quantity delivered to product `pid` by the lines of a purchase. -/
def purchaseDemand (items : List PurchaseItemCreate) (pid : Nat) : Int :=
  ((items.filter (fun it => it.product_id == pid)).map (fun it => it.quantity)).sum

theorem purchaseDemand_cons (it : PurchaseItemCreate) (rest : List PurchaseItemCreate)
    (pid : Nat) :
    purchaseDemand (it :: rest) pid =
      (if it.product_id = pid then it.quantity else 0) + purchaseDemand rest pid := by
  by_cases h : it.product_id = pid <;> simp [purchaseDemand, h]

/-- Relation between a requested purchase line and the pair of rows (purchase
item, stock movement) it produced: the line is priced by the caller-supplied
`unit_price` — no clause consults the product's stored price. -/
def purchaseLineRel (db : DB) (hid : Nat) (it : PurchaseItemCreate)
    (pr : PurchaseItem × StockMovement) : Prop :=
  (db.findProduct it.product_id).isSome ∧
    pr.1.purchase_id = hid ∧
    pr.1.product_id = it.product_id ∧
    pr.1.quantity = it.quantity ∧
    pr.1.unit_price = it.unit_price ∧
    pr.1.subtotal = it.unit_price * (it.quantity : ℚ) ∧
    pr.2.product_id = it.product_id ∧
    pr.2.quantity_change = it.quantity ∧
    pr.2.movement_type = "compra" ∧
    pr.2.reference = some ("Compra #" ++ toString hid)

/-- The store after one iteration of `create_purchase`'s item loop. -/
def purchaseStepDB (db : DB) (hid uid ts : Nat) (item : PurchaseItemCreate)
    (product : Product) : DB :=
  { db with
    purchase_items := db.purchase_items ++
      [⟨db.nextPurchaseItemId, hid, product.id, item.quantity, item.unit_price,
        item.unit_price * (item.quantity : ℚ)⟩]
    nextPurchaseItemId := db.nextPurchaseItemId + 1
    products := updateRow
      (fun p => { p with quantity := p.quantity + item.quantity })
      product.id db.products
    movements := db.movements ++
      [⟨db.nextMovementId, product.id, item.quantity, "compra",
        some ("Compra #" ++ toString hid), none, uid, ts⟩]
    nextMovementId := db.nextMovementId + 1 }

theorem processPurchaseItems_cons (hid uid ts : Nat) (db : DB) (total : ℚ)
    (item : PurchaseItemCreate) (rest : List PurchaseItemCreate) :
    processPurchaseItems hid uid ts db total (item :: rest) =
      match db.findProduct item.product_id with
      | none => .error (.notFound
          ("Producto con ID " ++ toString item.product_id ++ " no encontrado"))
      | some product =>
        processPurchaseItems hid uid ts (purchaseStepDB db hid uid ts item product)
          (total + item.unit_price * (item.quantity : ℚ)) rest := rfl

theorem findProduct_purchaseStep_isSome (db : DB) (hid uid ts : Nat)
    (item : PurchaseItemCreate) (product : Product) (x : Nat) :
    ((purchaseStepDB db hid uid ts item product).findProduct x).isSome =
      (db.findProduct x).isSome := by
  show ((updateRow (fun p => { p with quantity := p.quantity + item.quantity })
      product.id db.products).find? (fun p => p.id == x)).isSome =
    (db.products.find? (fun p => p.id == x)).isSome
  rw [updateRow_find? _ (fun p => by by_cases hh : p.id = product.id <;> simp [hh]) _ _ _]
  cases db.products.find? (fun p => p.id == x) <;> rfl

/-- Everything `create_purchase`'s per-item loop guarantees when it reaches the
end of the item list without raising. -/
theorem processPurchaseItems_ok_spec (hid uid ts : Nat) (items : List PurchaseItemCreate) :
    ∀ (db : DB) (total : ℚ) (db2 : DB) (total2 : ℚ),
    processPurchaseItems hid uid ts db total items = Except.ok (db2, total2) →
    ∃ pis mvs,
      db2.products = db.products.map
        (fun p => { p with quantity := p.quantity + purchaseDemand items p.id }) ∧
      db2.movements = db.movements ++ mvs ∧
      db2.purchase_items = db.purchase_items ++ pis ∧
      db2.sales = db.sales ∧
      db2.purchases = db.purchases ∧
      db2.sale_items = db.sale_items ∧
      db2.nextProductId = db.nextProductId ∧
      db2.nextPurchaseId = db.nextPurchaseId ∧
      db2.now = db.now ∧
      total2 = total + (pis.map (fun x => x.subtotal)).sum ∧
      List.Forall₂ (purchaseLineRel db hid) items (pis.zip mvs) ∧
      pis.length = items.length ∧
      mvs.length = items.length ∧
      (∀ pid, movementSum db2 pid = movementSum db pid + purchaseDemand items pid) ∧
      (∀ m ∈ mvs, ∃ it ∈ items, m.quantity_change = it.quantity) ∧
      (∀ m ∈ mvs, ∃ p ∈ db.products, p.id = m.product_id) := by
  induction items with
  | nil =>
    intro db total db2 total2 h
    simp only [processPurchaseItems] at h
    rw [Except.ok.injEq, Prod.mk.injEq] at h
    obtain ⟨h1, h2⟩ := h
    subst h1
    subst h2
    refine ⟨[], [], ?_, by simp, by simp, rfl, rfl, rfl, rfl, rfl, rfl, by simp,
      List.Forall₂.nil, rfl, rfl, ?_, by simp, by simp⟩
    · have : (fun p : Product => { p with quantity := p.quantity + purchaseDemand [] p.id }) =
          (fun p : Product => p) := by
        funext p
        simp [purchaseDemand]
      rw [this, List.map_id']
    · intro pid
      simp [purchaseDemand]
  | cons item rest ih =>
    intro db total db2 total2 h
    rw [processPurchaseItems_cons] at h
    cases hfp : db.findProduct item.product_id with
    | none =>
      rw [hfp] at h
      cases h
    | some product =>
      rw [hfp] at h
      simp only at h
      have hfp' : db.products.find? (fun p => p.id == item.product_id) = some product := hfp
      have hpid : product.id = item.product_id := by
        simpa using List.find?_some hfp'
      have hmem : product ∈ db.products := List.mem_of_find?_eq_some hfp'
      obtain ⟨pis, mvs, hprod, hmov, hpui, hsales, hpur, hsi, hnpi, hnpu, hnow, htot,
        hrel, hlen1, hlen2, hmsum, hqc, hmvmem⟩ := ih _ _ _ _ h
      set pit : PurchaseItem :=
        ⟨db.nextPurchaseItemId, hid, product.id, item.quantity, item.unit_price,
          item.unit_price * (item.quantity : ℚ)⟩ with hpit_def
      set mov : StockMovement :=
        ⟨db.nextMovementId, product.id, item.quantity, "compra",
          some ("Compra #" ++ toString hid), none, uid, ts⟩ with hmov_def
      refine ⟨pit :: pis, mov :: mvs, ?_, ?_, ?_, hsales, hpur, hsi, hnpi, hnpu, hnow,
        ?_, ?_, ?_, ?_, ?_, ?_, ?_⟩
      · rw [hprod]
        show (updateRow (fun p => { p with quantity := p.quantity + item.quantity })
            product.id db.products).map _ = _
        unfold updateRow
        rw [List.map_map]
        apply List.map_congr_left
        intro p _
        by_cases hp : p.id = product.id
        · have hip : item.product_id = p.id := by rw [← hpid, hp]
          simp only [Function.comp_apply, if_pos hp]
          rw [purchaseDemand_cons, if_pos hip]
          simp only [Product.mk.injEq, true_and]
          omega
        · have hip : item.product_id ≠ p.id := by
            rw [← hpid]
            exact fun hh => hp hh.symm
          simp only [Function.comp_apply, if_neg hp]
          rw [purchaseDemand_cons, if_neg hip]
          simp
      · rw [hmov]
        show (db.movements ++ [mov]) ++ mvs = _
        rw [List.append_assoc]
        rfl
      · rw [hpui]
        show (db.purchase_items ++ [pit]) ++ pis = _
        rw [List.append_assoc]
        rfl
      · rw [htot]
        show total + item.unit_price * (item.quantity : ℚ) +
          (List.map (fun x => x.subtotal) pis).sum = _
        rw [List.map_cons, List.sum_cons]
        show _ = total + (item.unit_price * (item.quantity : ℚ) + _)
        ring
      · show List.Forall₂ _ (item :: rest) ((pit, mov) :: pis.zip mvs)
        refine List.Forall₂.cons ?_ ?_
        · exact ⟨by rw [hfp]; rfl, rfl, hpid, rfl, rfl, rfl, hpid, rfl, rfl, rfl⟩
        · refine List.Forall₂.imp ?_ hrel
          rintro it pr ⟨hsome, hrest⟩
          refine ⟨?_, hrest⟩
          rw [← findProduct_purchaseStep_isSome db hid uid ts item product it.product_id]
          exact hsome
      · simp [hlen1]
      · simp [hlen2]
      · intro pid
        rw [hmsum pid]
        show movementSumList (db.movements ++ [mov]) pid + purchaseDemand rest pid = _
        rw [movementSumList_append, movementSumList_singleton, purchaseDemand_cons]
        show movementSum db pid +
            (if mov.product_id = pid then mov.quantity_change else 0) +
            purchaseDemand rest pid = _
        have hmovpid : mov.product_id = product.id := rfl
        have hmovqc : mov.quantity_change = item.quantity := rfl
        by_cases hc : item.product_id = pid
        · rw [if_pos (by rw [hmovpid, hpid, hc]), if_pos hc, hmovqc]
          omega
        · rw [if_neg (by rw [hmovpid, hpid]; exact hc), if_neg hc]
          omega
      · intro m hm
        rcases List.mem_cons.mp hm with hh | hm'
        · subst hh
          exact ⟨item, List.mem_cons_self _ _, rfl⟩
        · obtain ⟨it, hit, heq⟩ := hqc m hm'
          exact ⟨it, List.mem_cons_of_mem _ hit, heq⟩
      · intro m hm
        rcases List.mem_cons.mp hm with hh | hm'
        · subst hh
          exact ⟨product, hmem, rfl⟩
        · obtain ⟨p1, hp1mem, hp1id⟩ := hmvmem m hm'
          have hp1mem' : p1 ∈ (updateRow
              (fun p => { p with quantity := p.quantity + item.quantity })
              product.id db.products) := hp1mem
          unfold updateRow at hp1mem'
          obtain ⟨p0, hp0mem, hp0eq⟩ := List.mem_map.mp hp1mem'
          refine ⟨p0, hp0mem, ?_⟩
          have hid01 : p0.id = p1.id := by
            rw [← hp0eq]
            by_cases hh : p0.id = product.id <;> simp [hh]
          rw [hid01, hp1id]

/-- The store right after `create_purchase` has flushed the header row. -/
def purchaseInitDB (db : DB) (u : Nat) (pu : PurchaseCreate) : DB :=
  { db with
    purchases := db.purchases ++
      [⟨db.nextPurchaseId, pu.supplier_name, 0, pu.reference, u, db.now⟩]
    nextPurchaseId := db.nextPurchaseId + 1 }

theorem create_purchase_eq (db : DB) (u : Nat) (pu : PurchaseCreate)
    (hne : pu.items.isEmpty = false) :
    create_purchase db u pu =
      match processPurchaseItems db.nextPurchaseId u db.now
        (purchaseInitDB db u pu) 0 pu.items with
      | .error e => .error e
      | .ok (db1, total) =>
        .ok ({ db1 with
          purchases := db1.purchases.map
            (fun h => if h.id = db.nextPurchaseId then
              { h with total_amount := total } else h)
          now := db1.now + 1 },
          ⟨db.nextPurchaseId, pu.supplier_name, total, pu.reference, u, db.now⟩) := by
  unfold create_purchase
  rw [hne]
  rfl

/-- The store right after `create_sale` has flushed the header row. -/
def saleInitDB (db : DB) (u : Nat) (s : SaleCreate) : DB :=
  { db with
    sales := db.sales ++
      [⟨db.nextSaleId, s.customer_name, 0, s.payment_method, u, db.now⟩]
    nextSaleId := db.nextSaleId + 1 }

theorem create_sale_eq (db : DB) (u : Nat) (s : SaleCreate)
    (hne : s.items.isEmpty = false) :
    create_sale db u s =
      match processSaleItems db.nextSaleId u db.now (saleInitDB db u s) 0 s.items with
      | .error e => .error e
      | .ok (db1, total) =>
        .ok ({ db1 with
          sales := db1.sales.map
            (fun sl => if sl.id = db.nextSaleId then
              { sl with total_amount := total } else sl)
          now := db1.now + 1 },
          ⟨db.nextSaleId, s.customer_name, total, s.payment_method, u, db.now⟩) := by
  unfold create_sale
  rw [hne]
  rfl

/-- A store holding two products — id 1 at price 10 with quantity 3, id 2 at
price 5 with quantity 5 — each backed by its initial movement. -/
def dbAB : DB :=
  ⟨[⟨1, "A", none, 10, 3⟩, ⟨2, "B", none, 5, 5⟩],
   [⟨1, 1, 3, "inventario_inicial", none,
     some "Inventario inicial al crear el producto", 1, 0⟩,
    ⟨2, 2, 5, "inventario_inicial", none,
     some "Inventario inicial al crear el producto", 1, 1⟩],
   [], [], [], [], 3, 3, 1, 1, 1, 1, 2⟩

/-! ### C3 — signed-delta failure cases -/

/-- C3: `create_stock_movement` fails with `NotFound` when the product is
absent, fails with `InsufficientStock` when a negative delta would drive the
quantity below zero, and in every failure case the observed store keeps its
movement list and every product quantity unchanged. -/
theorem create_stock_movement_failure_safe (db : DB) (u : Nat) (m : StockMovementCreate) :
    (db.findProduct m.product_id = none →
      create_stock_movement db u m = Except.error (ApiError.notFound "Producto no encontrado")) ∧
    (∀ p, db.findProduct m.product_id = some p → m.quantity_change < 0 →
      p.quantity + m.quantity_change < 0 →
      create_stock_movement db u m =
        Except.error (ApiError.badRequest "No hay suficiente stock para realizar esta operación")) ∧
    (∀ e, create_stock_movement db u m = Except.error e →
      (runStockMovement db u m).movements = db.movements ∧
      ∀ pid, productQty (runStockMovement db u m) pid = productQty db pid) := by
  refine ⟨?_, ?_, ?_⟩
  · intro h
    simp only [create_stock_movement, h]
  · intro p hp hneg hbelow
    simp only [create_stock_movement, hp]
    rw [if_pos ⟨hneg, hbelow⟩]
  · intro e he
    unfold runStockMovement
    rw [he]
    exact ⟨rfl, fun _ => rfl⟩

/-- Witness for C3: the spec's test case — product with quantity 3, delta −5
fails with insufficient stock and changes nothing. -/
theorem create_stock_movement_failure_safe_witness :
    create_stock_movement dbA 1 ⟨1, -5, "salida", none, none⟩ =
      Except.error (ApiError.badRequest "No hay suficiente stock para realizar esta operación") ∧
    (runStockMovement dbA 1 ⟨1, -5, "salida", none, none⟩).movements = dbA.movements ∧
    productQty (runStockMovement dbA 1 ⟨1, -5, "salida", none, none⟩) 1 = 3 := by
  have h := create_stock_movement_failure_safe dbA 1 ⟨1, -5, "salida", none, none⟩
  have herr := h.2.1 ⟨1, "A", none, 10, 3⟩ rfl (by decide) (by decide)
  refine ⟨herr, (h.2.2 _ herr).1, ?_⟩
  rw [(h.2.2 _ herr).2 1]
  rfl

/-! ### C8 — manual quantity adjustment -/

/-- C8: `update_product` computes the delta `new − old`; when it is non-zero it
writes exactly one `ajuste` movement whose note captures the before/after
values and sets the cached quantity to the new value; when the new quantity
equals the old one, no movement is written (idempotent no-op). -/
theorem update_product_adjustment (db : DB) (u pid : Nat) (upd : ProductUpdate)
    (p : Product) (hfind : db.findProduct pid = some p)
    (hname : nameConflict db upd p = false) :
    (∀ q, upd.quantity = some q → q ≠ p.quantity →
      ∃ db', update_product db u pid upd = Except.ok (db', applyProductUpdate upd p) ∧
        db'.movements = db.movements ++
          [⟨db.nextMovementId, pid, q - p.quantity, "ajuste", none,
            some ("Ajuste manual: " ++ toString p.quantity ++ " -> " ++ toString q),
            u, db.now⟩] ∧
        productQty db' pid = q) ∧
    (upd.quantity = some p.quantity →
      ∃ db', update_product db u pid upd = Except.ok (db', applyProductUpdate upd p) ∧
        db'.movements = db.movements ∧
        productQty db' pid = p.quantity) := by
  have hid : p.id = pid := by
    have := List.find?_some hfind
    simpa using this
  have hfind' : db.products.find? (fun r => r.id == pid) = some p := hfind
  have hfindUpd : (updateRow (applyProductUpdate upd) pid db.products).find?
      (fun r => r.id == pid) = some (applyProductUpdate upd p) := by
    rw [updateRow_find? _ (fun r => applyProductUpdate_id upd r) pid pid db.products, hfind']
    simp [hid]
  constructor
  · intro q hq hne
    simp only [update_product, hfind, hname, Bool.false_eq_true, if_false, hq]
    rw [if_pos hne]
    refine ⟨_, rfl, by simp, ?_⟩
    simp only [productQty, DB.findProduct]
    rw [hfindUpd]
    simp [applyProductUpdate, hq]
  · intro hq
    simp only [update_product, hfind, hname, Bool.false_eq_true, if_false, hq]
    rw [if_neg (by simp)]
    refine ⟨_, rfl, by simp, ?_⟩
    simp only [productQty, DB.findProduct]
    rw [hfindUpd]
    simp [applyProductUpdate, hq]

/-- Witness for C8: adjusting product 1 of `dbA` from quantity 3 to 10 writes
one `ajuste` movement with delta 7 and note `Ajuste manual: 3 -> 10`; adjusting
3 to 3 writes none. -/
theorem update_product_adjustment_witness :
    (∃ db', update_product dbA 1 1 ⟨none, none, none, some 10⟩ =
        Except.ok (db', applyProductUpdate ⟨none, none, none, some 10⟩ ⟨1, "A", none, 10, 3⟩) ∧
      db'.movements = dbA.movements ++
        [⟨2, 1, 7, "ajuste", none, some "Ajuste manual: 3 -> 10", 1, 1⟩] ∧
      productQty db' 1 = 10) ∧
    (∃ db', update_product dbA 1 1 ⟨none, none, none, some 3⟩ =
        Except.ok (db', applyProductUpdate ⟨none, none, none, some 3⟩ ⟨1, "A", none, 10, 3⟩) ∧
      db'.movements = dbA.movements ∧
      productQty db' 1 = 3) := by
  constructor
  · have h := (update_product_adjustment dbA 1 1 ⟨none, none, none, some 10⟩
      ⟨1, "A", none, 10, 3⟩ rfl rfl).1 10 rfl (by decide)
    exact h
  · have h := (update_product_adjustment dbA 1 1 ⟨none, none, none, some 3⟩
      ⟨1, "A", none, 10, 3⟩ rfl rfl).2 rfl
    exact h

/-! ### C10 — repeated products within one sale -/

/-- C10: when every line of a sale references an existing product and every
line quantity is positive (as the request schema guarantees), `create_sale`
succeeds exactly when each product's pre-call quantity covers the summed
demand of all of that product's lines — each line's stock check observes the
quantity already decremented by the preceding lines of the same sale. -/
theorem create_sale_ok_iff_demand_covered (db : DB) (u : Nat) (s : SaleCreate)
    (hne : s.items ≠ [])
    (hex : ∀ it ∈ s.items, (db.findProduct it.product_id).isSome)
    (hpos : ∀ it ∈ s.items, 0 < it.quantity) :
    (∃ r, create_sale db u s = Except.ok r) ↔
      ∀ it ∈ s.items, salesDemand s.items it.product_id ≤ productQty db it.product_id := by
  have hne' : s.items.isEmpty = false := by
    cases hi : s.items with
    | nil => exact absurd hi hne
    | cons a l => rfl
  rw [create_sale_eq db u s hne']
  have hex0 : ∀ it ∈ s.items, ((saleInitDB db u s).findProduct it.product_id).isSome := hex
  have hiff := processSaleItems_isOk_iff db.nextSaleId u db.now s.items
    (saleInitDB db u s) 0 hex0 hpos
  constructor
  · rintro ⟨r, hr⟩
    cases hp : processSaleItems db.nextSaleId u db.now (saleInitDB db u s) 0 s.items with
    | error e =>
      rw [hp] at hr
      cases hr
    | ok pr =>
      exact hiff.mp ⟨pr, hp⟩
  · intro hall
    obtain ⟨⟨db1, total⟩, hp⟩ := hiff.mpr hall
    rw [hp]
    exact ⟨_, rfl⟩

/-- Witness for C10: on a product with quantity 3, the sale
`[(product 1, qty 2), (product 1, qty 2)]` fails — the second line's check
sees quantity 1 — and indeed the summed demand 4 exceeds 3. -/
theorem create_sale_ok_iff_demand_covered_witness :
    (¬ ∃ r, create_sale dbA 1 ⟨none, "efectivo", [⟨1, 2⟩, ⟨1, 2⟩]⟩ = Except.ok r) ∧
    create_sale dbA 1 ⟨none, "efectivo", [⟨1, 2⟩, ⟨1, 2⟩]⟩ =
      Except.error (ApiError.badRequest "Stock insuficiente para el producto 'A'") := by
  constructor
  · intro hok
    have h := (create_sale_ok_iff_demand_covered dbA 1 ⟨none, "efectivo", [⟨1, 2⟩, ⟨1, 2⟩]⟩
      (by decide) (by decide) (by decide)).mp hok
    have h1 := h ⟨1, 2⟩ (by decide)
    have h2 : ¬ (salesDemand [⟨1, 2⟩, ⟨1, 2⟩] 1 ≤ productQty dbA 1) := by decide
    exact h2 h1
  · rfl

/-! ### C2 — multi-line sale is all-or-nothing -/

/-- C2: if any line of a multi-line sale fails (referenced product missing, or
available quantity below the requested quantity), `create_sale` raises after
`db.rollback()`: the observed store is the pre-call one, so no line items, no
movements, and no product-quantity or movement-count changes persist.  A line
referencing a missing product always makes the whole recording fail. -/
theorem create_sale_rollback (db : DB) (u : Nat) (s : SaleCreate) :
    (∀ e, create_sale db u s = Except.error e →
      runSale db u s = db ∧
      (runSale db u s).sale_items = db.sale_items ∧
      (runSale db u s).movements = db.movements ∧
      (∀ pid, productQty (runSale db u s) pid = productQty db pid ∧
        movementCount (runSale db u s) pid = movementCount db pid)) ∧
    ((∃ it ∈ s.items, db.findProduct it.product_id = none) →
      ∃ e, create_sale db u s = Except.error e) := by
  constructor
  · intro e he
    have hrun : runSale db u s = db := by
      unfold runSale
      rw [he]
    rw [hrun]
    exact ⟨rfl, rfl, rfl, fun _ => ⟨rfl, rfl⟩⟩
  · rintro ⟨it, hit, hnone⟩
    cases hc : create_sale db u s with
    | error e => exact ⟨e, rfl⟩
    | ok r =>
      exfalso
      have hne' : s.items.isEmpty = false := by
        cases hi : s.items with
        | nil =>
          rw [hi] at hit
          cases hit
        | cons a l => rfl
      rw [create_sale_eq db u s hne'] at hc
      cases hp : processSaleItems db.nextSaleId u db.now (saleInitDB db u s) 0 s.items with
      | error e =>
        rw [hp] at hc
        cases hc
      | ok pr =>
        obtain ⟨db1, total⟩ := pr
        obtain ⟨_, _, _, _, _, _, _, _, _, _, _, _, _, _, _, _, hisome, _⟩ :=
          processSaleItems_ok_spec _ _ _ s.items _ _ _ _ hp
        have hsome := hisome it hit
        have hsome' : (db.findProduct it.product_id).isSome = true := hsome
        rw [hnone] at hsome'
        cases hsome'

/-- Witness for C2: the spec's scenario — the second line of a two-line sale
fails on insufficient stock, and product 1 keeps its pre-call quantity 3 and
movement count 1. -/
theorem create_sale_rollback_witness :
    create_sale dbA 1 ⟨none, "tarjeta", [⟨1, 1⟩, ⟨1, 3⟩]⟩ =
      Except.error (ApiError.badRequest "Stock insuficiente para el producto 'A'") ∧
    runSale dbA 1 ⟨none, "tarjeta", [⟨1, 1⟩, ⟨1, 3⟩]⟩ = dbA ∧
    productQty (runSale dbA 1 ⟨none, "tarjeta", [⟨1, 1⟩, ⟨1, 3⟩]⟩) 1 = 3 ∧
    movementCount (runSale dbA 1 ⟨none, "tarjeta", [⟨1, 1⟩, ⟨1, 3⟩]⟩) 1 = 1 := by
  have he : create_sale dbA 1 ⟨none, "tarjeta", [⟨1, 1⟩, ⟨1, 3⟩]⟩ =
      Except.error (ApiError.badRequest "Stock insuficiente para el producto 'A'") := rfl
  have h := (create_sale_rollback dbA 1 ⟨none, "tarjeta", [⟨1, 1⟩, ⟨1, 3⟩]⟩).1 _ he
  refine ⟨he, h.1, ?_, ?_⟩
  · rw [(h.2.2.2 1).1]
    rfl
  · rw [(h.2.2.2 1).2]
    rfl

/-! ### C4 — successful sale output shape -/

/-- C4: a sale whose lines all reference existing products with sufficient
stock produces a header whose total is the sum of the line subtotals, each
subtotal being the product's current price times the requested quantity, and
exactly one `venta` movement per line whose delta is minus the line quantity
and whose reference string names the header id. -/
theorem create_sale_success_shape (db : DB) (u : Nat) (s : SaleCreate)
    (db' : DB) (sale : Sale) (hok : create_sale db u s = Except.ok (db', sale)) :
    ∃ sis mvs,
      db'.sale_items = db.sale_items ++ sis ∧
      db'.movements = db.movements ++ mvs ∧
      sis.length = s.items.length ∧
      mvs.length = s.items.length ∧
      sale.total_amount = (sis.map (fun x => x.subtotal)).sum ∧
      List.Forall₂ (saleLineRel db sale.id) s.items (sis.zip mvs) := by
  by_cases hne : s.items.isEmpty
  · unfold create_sale at hok
    rw [hne] at hok
    cases hok
  · have hne' : s.items.isEmpty = false := by simpa using hne
    rw [create_sale_eq db u s hne'] at hok
    cases hp : processSaleItems db.nextSaleId u db.now (saleInitDB db u s) 0 s.items with
    | error e =>
      rw [hp] at hok
      cases hok
    | ok pr =>
      obtain ⟨db1, total⟩ := pr
      rw [hp] at hok
      rw [Except.ok.injEq, Prod.mk.injEq] at hok
      obtain ⟨hdb', hsale⟩ := hok
      obtain ⟨sis, mvs, _, hmov, hsi, _, _, _, _, _, _, htot, hrel, hlen1, hlen2, _, _, _⟩ :=
        processSaleItems_ok_spec _ _ _ s.items _ _ _ _ hp
      subst hdb'
      subst hsale
      refine ⟨sis, mvs, hsi, hmov, hlen1, hlen2, ?_, hrel⟩
      show total = _
      rw [htot]
      exact zero_add _

/-- Witness for C4: the spec's example — selling (product 1, qty 2, price 10)
and (product 2, qty 1, price 5) from `dbAB` yields a header with total 25,
subtotals 20 and 5, and movements with deltas −2 and −1 referencing
`Venta #1`. -/
theorem create_sale_success_shape_witness :
    ∃ db' sale sis mvs,
      create_sale dbAB 1 ⟨none, "efectivo", [⟨1, 2⟩, ⟨2, 1⟩]⟩ = Except.ok (db', sale) ∧
      db'.sale_items = dbAB.sale_items ++ sis ∧
      db'.movements = dbAB.movements ++ mvs ∧
      sis.length = 2 ∧
      mvs.length = 2 ∧
      sale.total_amount = (sis.map (fun x => x.subtotal)).sum ∧
      List.Forall₂ (saleLineRel dbAB sale.id) [⟨1, 2⟩, ⟨2, 1⟩] (sis.zip mvs) := by
  obtain ⟨db', sale, hok⟩ : ∃ db' sale,
      create_sale dbAB 1 ⟨none, "efectivo", [⟨1, 2⟩, ⟨2, 1⟩]⟩ = Except.ok (db', sale) :=
    ⟨_, _, rfl⟩
  obtain ⟨sis, mvs, h1, h2, h3, h4, h5, h6⟩ :=
    create_sale_success_shape dbAB 1 ⟨none, "efectivo", [⟨1, 2⟩, ⟨2, 1⟩]⟩ db' sale hok
  exact ⟨db', sale, sis, mvs, hok, h1, h2, h3, h4, h5, h6⟩

/-! ### C5 — pricing asymmetry between purchases and sales -/

/-- C5: every recorded purchase line is priced by the caller-supplied unit
price times the quantity — `purchaseLineRel` fixes `unit_price` and `subtotal`
from the request line alone, never consulting the product's stored price — and
its ledger delta is the (positive) line quantity, while every sale line is
priced by the product's current price at sale time (`saleLineRel`); each
header's total is the sum of its line subtotals. -/
theorem purchase_caller_priced_sale_catalog_priced (db : DB) (u : Nat)
    (s : SaleCreate) (pu : PurchaseCreate) :
    (∀ db' hdr, create_purchase db u pu = Except.ok (db', hdr) →
      ∃ pis mvs,
        db'.purchase_items = db.purchase_items ++ pis ∧
        db'.movements = db.movements ++ mvs ∧
        hdr.total_amount = (pis.map (fun x => x.subtotal)).sum ∧
        List.Forall₂ (purchaseLineRel db hdr.id) pu.items (pis.zip mvs) ∧
        ((∀ it ∈ pu.items, 0 < it.quantity) → ∀ m ∈ mvs, 0 < m.quantity_change)) ∧
    (∀ db' hdr, create_sale db u s = Except.ok (db', hdr) →
      ∃ sis mvs,
        db'.sale_items = db.sale_items ++ sis ∧
        hdr.total_amount = (sis.map (fun x => x.subtotal)).sum ∧
        List.Forall₂ (saleLineRel db hdr.id) s.items (sis.zip mvs)) := by
  constructor
  · intro db' hdr hok
    by_cases hne : pu.items.isEmpty
    · unfold create_purchase at hok
      rw [hne] at hok
      cases hok
    · have hne' : pu.items.isEmpty = false := by simpa using hne
      rw [create_purchase_eq db u pu hne'] at hok
      cases hp : processPurchaseItems db.nextPurchaseId u db.now
        (purchaseInitDB db u pu) 0 pu.items with
      | error e =>
        rw [hp] at hok
        cases hok
      | ok pr =>
        obtain ⟨db1, total⟩ := pr
        rw [hp] at hok
        rw [Except.ok.injEq, Prod.mk.injEq] at hok
        obtain ⟨hdb', hhdr⟩ := hok
        obtain ⟨pis, mvs, _, hmov, hpui, _, _, _, _, _, _, htot, hrel, _, _, _, hqc, _⟩ :=
          processPurchaseItems_ok_spec _ _ _ pu.items _ _ _ _ hp
        subst hdb'
        subst hhdr
        refine ⟨pis, mvs, hpui, hmov, ?_, hrel, ?_⟩
        · show total = _
          rw [htot]
          exact zero_add _
        · intro hpos m hm
          obtain ⟨it, hit, heq⟩ := hqc m hm
          rw [heq]
          exact hpos it hit
  · intro db' hdr hok
    by_cases hne : s.items.isEmpty
    · unfold create_sale at hok
      rw [hne] at hok
      cases hok
    · have hne' : s.items.isEmpty = false := by simpa using hne
      rw [create_sale_eq db u s hne'] at hok
      cases hp : processSaleItems db.nextSaleId u db.now (saleInitDB db u s) 0 s.items with
      | error e =>
        rw [hp] at hok
        cases hok
      | ok pr =>
        obtain ⟨db1, total⟩ := pr
        rw [hp] at hok
        rw [Except.ok.injEq, Prod.mk.injEq] at hok
        obtain ⟨hdb', hsale⟩ := hok
        obtain ⟨sis, mvs, _, _, hsi, _, _, _, _, _, _, htot, hrel, _, _, _, _, _⟩ :=
          processSaleItems_ok_spec _ _ _ s.items _ _ _ _ hp
        subst hdb'
        subst hsale
        refine ⟨sis, mvs, hsi, ?_, hrel⟩
        show total = _
        rw [htot]
        exact zero_add _

/-- Witness for C5: purchasing 4 units of product 1 at caller price 7/2 — not
the product's list price 10 — on `dbAB` succeeds, each line subtotal comes
from the caller price, and every ledger delta is positive. -/
theorem purchase_caller_priced_sale_catalog_priced_witness :
    ∃ db' hdr pis mvs,
      create_purchase dbAB 1 ⟨"prov", some "F-1", [⟨1, 4, (7 : ℚ)/2⟩]⟩ =
        Except.ok (db', hdr) ∧
      db'.purchase_items = dbAB.purchase_items ++ pis ∧
      hdr.total_amount = (pis.map (fun x => x.subtotal)).sum ∧
      List.Forall₂ (purchaseLineRel dbAB hdr.id) [⟨1, 4, (7 : ℚ)/2⟩] (pis.zip mvs) ∧
      (∀ m ∈ mvs, 0 < m.quantity_change) := by
  obtain ⟨db', hdr, hok⟩ : ∃ db' hdr,
      create_purchase dbAB 1 ⟨"prov", some "F-1", [⟨1, 4, (7 : ℚ)/2⟩]⟩ =
        Except.ok (db', hdr) := ⟨_, _, rfl⟩
  obtain ⟨pis, mvs, h1, h2, h3, h4, h5⟩ :=
    (purchase_caller_priced_sale_catalog_priced dbAB 1 ⟨none, "efectivo", []⟩
      ⟨"prov", some "F-1", [⟨1, 4, (7 : ℚ)/2⟩]⟩).1 db' hdr hok
  exact ⟨db', hdr, pis, mvs, hok, h1, h3, h4, h5 (by decide)⟩

/-! ### C1 — the ledger invariant -/

theorem movementSumList_cons (m : StockMovement) (l : List StockMovement) (pid : Nat) :
    movementSumList (m :: l) pid =
      (if m.product_id = pid then m.quantity_change else 0) + movementSumList l pid := by
  by_cases h : m.product_id = pid <;> simp [movementSumList, h]

theorem movementSumList_eq_zero (l : List StockMovement) (pid : Nat)
    (h : ∀ m ∈ l, m.product_id ≠ pid) : movementSumList l pid = 0 := by
  induction l with
  | nil => rfl
  | cons m rest ih =>
    rw [movementSumList_cons, if_neg (h m (List.mem_cons_self _ _)),
      ih (fun x hx => h x (List.mem_cons_of_mem _ hx))]
    simp

theorem find?_eq_of_mem_nodup (ps : List Product)
    (hnd : (ps.map (fun p => p.id)).Nodup) (p0 : Product) (hp0 : p0 ∈ ps) :
    ps.find? (fun p => p.id == p0.id) = some p0 := by
  induction ps with
  | nil => cases hp0
  | cons a l ih =>
    rw [List.map_cons, List.nodup_cons] at hnd
    rcases List.mem_cons.mp hp0 with hh | hmem
    · subst hh
      rw [List.find?_cons_of_pos]
      simp
    · have hne : (a.id == p0.id) = false := by
        rw [beq_eq_false_iff_ne]
        intro he
        have hmm : p0.id ∈ l.map (fun p => p.id) := List.mem_map_of_mem _ hmem
        rw [← he] at hmm
        exact hnd.1 hmm
      rw [List.find?_cons_of_neg]
      · exact ih hnd.2 hmem
      · simp [hne]

theorem map_id_of_preserve (g : Product → Product) (hg : ∀ p, (g p).id = p.id)
    (ps : List Product) :
    (ps.map g).map (fun p => p.id) = ps.map (fun p => p.id) := by
  rw [List.map_map]
  apply List.map_congr_left
  intro p _
  simp [Function.comp, hg]

/-- Well-formedness maintained by every handler: autoincrement ids dominate
the stored ids, primary keys are unique, movements reference existing
products, and the ledger invariant itself. -/
def Wf (db : DB) : Prop :=
  (∀ p ∈ db.products, p.id < db.nextProductId) ∧
  (db.products.map (fun p => p.id)).Nodup ∧
  (∀ m ∈ db.movements, ∃ p ∈ db.products, p.id = m.product_id) ∧
  (∀ p ∈ db.products, p.quantity = movementSum db p.id)

theorem wf_empty : Wf DB.empty := by
  refine ⟨?_, ?_, ?_, ?_⟩ <;> simp [DB.empty]

theorem wf_createProduct (db : DB) (u : Nat) (n : String) (d : Option String)
    (pr : ℚ) (q : Int) (hq : 0 ≤ q) (hwf : Wf db) :
    Wf (step db (Op.createProduct u n d pr q)) := by
  obtain ⟨hlt, hnd, href, hinv⟩ := hwf
  show Wf (match create_product db u n d pr q with
    | .ok (db', _) => db'
    | .error _ => db)
  cases hname : db.findProductByName n with
  | some p =>
    have he : create_product db u n d pr q =
        Except.error (ApiError.badRequest "Ya existe un producto con ese nombre") := by
      unfold create_product
      rw [hname]
    rw [he]
    exact ⟨hlt, hnd, href, hinv⟩
  | none =>
    have hmovzero : movementSumList db.movements db.nextProductId = 0 := by
      apply movementSumList_eq_zero
      intro m hm
      obtain ⟨p0, hp0, hp0id⟩ := href m hm
      have := hlt p0 hp0
      omega
    have hnd' : ((db.products ++
        [(⟨db.nextProductId, n, d, pr, q⟩ : Product)]).map (fun p => p.id)).Nodup := by
      rw [List.map_append]
      refine List.Nodup.append hnd (by simp) ?_
      intro x hx1 hx2
      simp only [List.map_cons, List.map_nil, List.mem_singleton] at hx2
      subst hx2
      obtain ⟨p0, hp0, hp0id⟩ := List.mem_map.mp hx1
      have := hlt p0 hp0
      omega
    have hlt' : ∀ p ∈ db.products ++ [(⟨db.nextProductId, n, d, pr, q⟩ : Product)],
        p.id < db.nextProductId + 1 := by
      intro p hp
      rcases List.mem_append.mp hp with hp | hp
      · have := hlt p hp
        omega
      · rw [List.mem_singleton] at hp
        subst hp
        show db.nextProductId < db.nextProductId + 1
        omega
    by_cases hq0 : 0 < q
    · have he : create_product db u n d pr q = Except.ok
          ({ db with
            products := db.products ++ [⟨db.nextProductId, n, d, pr, q⟩]
            nextProductId := db.nextProductId + 1
            movements := db.movements ++
              [⟨db.nextMovementId, db.nextProductId, q, "inventario_inicial", none,
                some "Inventario inicial al crear el producto", u, db.now⟩]
            nextMovementId := db.nextMovementId + 1
            now := db.now + 1 },
            ⟨db.nextProductId, n, d, pr, q⟩) := by
        unfold create_product
        rw [hname, if_pos hq0]
      rw [he]
      refine ⟨hlt', hnd', ?_, ?_⟩
      · intro m hm
        rcases List.mem_append.mp hm with hm | hm
        · obtain ⟨p0, hp0, hp0id⟩ := href m hm
          exact ⟨p0, List.mem_append_left _ hp0, hp0id⟩
        · rw [List.mem_singleton] at hm
          subst hm
          exact ⟨⟨db.nextProductId, n, d, pr, q⟩, List.mem_append_right _ (by simp), rfl⟩
      · intro p hp
        show p.quantity = movementSumList (db.movements ++ [_]) p.id
        rw [movementSumList_append, movementSumList_singleton]
        rcases List.mem_append.mp hp with hp | hp
        · have hlp := hlt p hp
          rw [if_neg (by show db.nextProductId ≠ p.id; omega)]
          have hmv : p.quantity = movementSumList db.movements p.id := hinv p hp
          omega
        · rw [List.mem_singleton] at hp
          subst hp
          show q = movementSumList db.movements db.nextProductId +
            (if db.nextProductId = db.nextProductId then q else 0)
          rw [if_pos rfl, hmovzero]
          omega
    · have hq' : q = 0 := by omega
      have he : create_product db u n d pr q = Except.ok
          ({ db with
            products := db.products ++ [⟨db.nextProductId, n, d, pr, q⟩]
            nextProductId := db.nextProductId + 1
            now := db.now + 1 },
            ⟨db.nextProductId, n, d, pr, q⟩) := by
        unfold create_product
        rw [hname, if_neg hq0]
      rw [he]
      refine ⟨hlt', hnd', ?_, ?_⟩
      · intro m hm
        obtain ⟨p0, hp0, hp0id⟩ := href m hm
        exact ⟨p0, List.mem_append_left _ hp0, hp0id⟩
      · intro p hp
        rcases List.mem_append.mp hp with hp | hp
        · exact hinv p hp
        · rw [List.mem_singleton] at hp
          subst hp
          show q = movementSumList db.movements db.nextProductId
          rw [hmovzero]
          exact hq'

theorem mem_updateRow (f : Product → Product) (pid : Nat) (ps : List Product)
    (p1 : Product) (hp1 : p1 ∈ updateRow f pid ps) :
    ∃ p0 ∈ ps, p1 = if p0.id = pid then f p0 else p0 := by
  unfold updateRow at hp1
  obtain ⟨p0, hp0, he⟩ := List.mem_map.mp hp1
  exact ⟨p0, hp0, he.symm⟩

theorem updateRow_map_id (f : Product → Product) (hf : ∀ p, (f p).id = p.id)
    (pid : Nat) (ps : List Product) :
    (updateRow f pid ps).map (fun p => p.id) = ps.map (fun p => p.id) := by
  unfold updateRow
  rw [List.map_map]
  apply List.map_congr_left
  intro p _
  by_cases h : p.id = pid <;> simp [Function.comp, h, hf]

theorem wf_stockMovement (db : DB) (u : Nat) (m : StockMovementCreate)
    (hwf : Wf db) : Wf (step db (Op.stockMovement u m)) := by
  obtain ⟨hlt, hnd, href, hinv⟩ := hwf
  show Wf (match create_stock_movement db u m with
    | .ok (db', _) => db'
    | .error _ => db)
  cases hfp : db.findProduct m.product_id with
  | none =>
    have he : create_stock_movement db u m =
        Except.error (ApiError.notFound "Producto no encontrado") := by
      unfold create_stock_movement
      rw [hfp]
    rw [he]
    exact ⟨hlt, hnd, href, hinv⟩
  | some product =>
    have hfp' : db.products.find? (fun p => p.id == m.product_id) = some product := hfp
    have hpmem : product ∈ db.products := List.mem_of_find?_eq_some hfp'
    have hpid : product.id = m.product_id := by
      simpa using List.find?_some hfp'
    by_cases hcond : m.quantity_change < 0 ∧ product.quantity + m.quantity_change < 0
    · have he : create_stock_movement db u m = Except.error
          (ApiError.badRequest "No hay suficiente stock para realizar esta operación") := by
        simp only [create_stock_movement, hfp]
        rw [if_pos hcond]
      rw [he]
      exact ⟨hlt, hnd, href, hinv⟩
    · have he : create_stock_movement db u m = Except.ok
          ({ db with
            products := updateRow
              (fun p => { p with quantity := p.quantity + m.quantity_change })
              m.product_id db.products
            movements := db.movements ++
              [⟨db.nextMovementId, m.product_id, m.quantity_change, m.movement_type,
                m.reference, m.notes, u, db.now⟩]
            nextMovementId := db.nextMovementId + 1
            now := db.now + 1 },
            ⟨db.nextMovementId, m.product_id, m.quantity_change, m.movement_type,
              m.reference, m.notes, u, db.now⟩) := by
        simp only [create_stock_movement, hfp]
        rw [if_neg hcond]
      rw [he]
      refine ⟨?_, ?_, ?_, ?_⟩
      · intro p hp
        obtain ⟨p0, hp0, hpe⟩ := mem_updateRow _ _ _ _ hp
        have hl := hlt p0 hp0
        show p.id < db.nextProductId
        rw [hpe]
        by_cases hc : p0.id = m.product_id
        · simpa [hc] using hl
        · simpa [hc] using hl
      · show ((updateRow
            (fun p => { p with quantity := p.quantity + m.quantity_change })
            m.product_id db.products).map (fun p => p.id)).Nodup
        rw [updateRow_map_id
          (fun p => { p with quantity := p.quantity + m.quantity_change })
          (fun p => rfl) m.product_id db.products]
        exact hnd
      · intro mv hmv
        rcases List.mem_append.mp hmv with hmv | hmv
        · obtain ⟨p0, hp0, hp0id⟩ := href mv hmv
          refine ⟨(if p0.id = m.product_id then
            { p0 with quantity := p0.quantity + m.quantity_change } else p0), ?_, ?_⟩
          · unfold updateRow
            exact List.mem_map_of_mem _ hp0
          · by_cases hc : p0.id = m.product_id
            · simpa [hc] using hp0id
            · simpa [hc] using hp0id
        · rw [List.mem_singleton] at hmv
          subst hmv
          refine ⟨(if product.id = m.product_id then
            { product with quantity := product.quantity + m.quantity_change }
            else product), ?_, ?_⟩
          · unfold updateRow
            exact List.mem_map_of_mem _ hpmem
          · rw [if_pos hpid]
            exact hpid
      · intro p hp
        obtain ⟨p0, hp0, hpe⟩ := mem_updateRow _ _ _ _ hp
        have hbase : p0.quantity = movementSumList db.movements p0.id := hinv p0 hp0
        show p.quantity = movementSumList (db.movements ++ [_]) p.id
        rw [movementSumList_append, movementSumList_singleton]
        subst hpe
        by_cases hc : p0.id = m.product_id
        · simp only [if_pos hc]
          show p0.quantity + m.quantity_change = movementSumList db.movements p0.id +
            (if m.product_id = p0.id then m.quantity_change else 0)
          rw [if_pos hc.symm]
          omega
        · simp only [if_neg hc]
          show p0.quantity = movementSumList db.movements p0.id +
            (if m.product_id = p0.id then m.quantity_change else 0)
          rw [if_neg (fun hh => hc hh.symm)]
          omega

theorem wf_update_core (db : DB) (pid : Nat) (upd : ProductUpdate) (product : Product)
    (newMovs : List StockMovement) (nmid nnow : Nat)
    (hlt : ∀ p ∈ db.products, p.id < db.nextProductId)
    (hnd : (db.products.map (fun p => p.id)).Nodup)
    (href : ∀ m ∈ db.movements, ∃ p ∈ db.products, p.id = m.product_id)
    (hinv : ∀ p ∈ db.products, p.quantity = movementSum db p.id)
    (hfp' : db.products.find? (fun p => p.id == pid) = some product)
    (hmvpid : ∀ mv ∈ newMovs, mv.product_id = pid)
    (hmvsum : movementSumList newMovs pid =
      (applyProductUpdate upd product).quantity - product.quantity) :
    Wf { db with
      products := updateRow (applyProductUpdate upd) pid db.products
      movements := db.movements ++ newMovs
      nextMovementId := nmid
      now := nnow } := by
  have hpmem : product ∈ db.products := List.mem_of_find?_eq_some hfp'
  have hpid : product.id = pid := by
    simpa using List.find?_some hfp'
  refine ⟨?_, ?_, ?_, ?_⟩
  · intro p hp
    obtain ⟨p0, hp0, hpe⟩ := mem_updateRow _ _ _ _ hp
    have hl := hlt p0 hp0
    show p.id < db.nextProductId
    rw [hpe]
    by_cases hc : p0.id = pid
    · simpa [hc, applyProductUpdate_id] using hl
    · simpa [hc] using hl
  · show ((updateRow (applyProductUpdate upd) pid db.products).map
      (fun p => p.id)).Nodup
    rw [updateRow_map_id (applyProductUpdate upd) (fun p => rfl) pid db.products]
    exact hnd
  · intro mv hmv
    rcases List.mem_append.mp hmv with hmv | hmv
    · obtain ⟨p0, hp0, hp0id⟩ := href mv hmv
      refine ⟨(if p0.id = pid then applyProductUpdate upd p0 else p0), ?_, ?_⟩
      · unfold updateRow
        exact List.mem_map_of_mem _ hp0
      · by_cases hc : p0.id = pid
        · simpa [hc, applyProductUpdate_id] using hp0id
        · simpa [hc] using hp0id
    · refine ⟨(if product.id = pid then applyProductUpdate upd product else product),
        ?_, ?_⟩
      · unfold updateRow
        exact List.mem_map_of_mem _ hpmem
      · rw [if_pos hpid, applyProductUpdate_id, hmvpid mv hmv]
        exact hpid
  · intro p hp
    obtain ⟨p0, hp0, hpe⟩ := mem_updateRow _ _ _ _ hp
    have hbase : p0.quantity = movementSumList db.movements p0.id := hinv p0 hp0
    show p.quantity = movementSumList (db.movements ++ newMovs) p.id
    rw [movementSumList_append]
    subst hpe
    by_cases hc : p0.id = pid
    · have hup : db.products.find? (fun p => p.id == p0.id) = some p0 :=
        find?_eq_of_mem_nodup db.products hnd p0 hp0
      rw [hc] at hup
      rw [hup] at hfp'
      have hpp : p0 = product := by
        injection hfp'
      simp only [if_pos hc]
      show (applyProductUpdate upd p0).quantity =
        movementSumList db.movements (applyProductUpdate upd p0).id +
        movementSumList newMovs (applyProductUpdate upd p0).id
      rw [applyProductUpdate_id]
      subst hpp
      rw [hc, hmvsum]
      rw [hc] at hbase
      omega
    · simp only [if_neg hc]
      have hz : movementSumList newMovs p0.id = 0 := by
        apply movementSumList_eq_zero
        intro mv hmv
        rw [hmvpid mv hmv]
        exact fun hh => hc hh.symm
      rw [hz]
      omega

theorem wf_updateProduct (db : DB) (u pid : Nat) (upd : ProductUpdate)
    (hwf : Wf db) : Wf (step db (Op.updateProduct u pid upd)) := by
  obtain ⟨hlt, hnd, href, hinv⟩ := hwf
  show Wf (match update_product db u pid upd with
    | .ok (db', _) => db'
    | .error _ => db)
  cases hfp : db.findProduct pid with
  | none =>
    have he : update_product db u pid upd =
        Except.error (ApiError.notFound "Producto no encontrado") := by
      simp only [update_product, hfp]
    rw [he]
    exact ⟨hlt, hnd, href, hinv⟩
  | some product =>
    have hfp' : db.products.find? (fun p => p.id == pid) = some product := hfp
    by_cases hnc : nameConflict db upd product
    · have he : update_product db u pid upd =
          Except.error (ApiError.badRequest "Ya existe un producto con ese nombre") := by
        simp only [update_product, hfp, hnc, if_true]
      rw [he]
      exact ⟨hlt, hnd, href, hinv⟩
    · have hnc' : nameConflict db upd product = false := by simpa using hnc
      cases huq : upd.quantity with
      | none =>
        simp only [update_product, hfp, hnc', Bool.false_eq_true, if_false, huq]
        exact wf_update_core db pid upd product [] _ _ hlt hnd href hinv hfp'
          (by simp)
          (by simp [movementSumList, applyProductUpdate, huq])
      | some q =>
        by_cases hqe : q ≠ product.quantity
        · simp only [update_product, hfp, hnc', Bool.false_eq_true, if_false, huq,
            if_pos hqe]
          exact wf_update_core db pid upd product
            [⟨db.nextMovementId, pid, q - product.quantity, "ajuste", none,
              some ("Ajuste manual: " ++ toString product.quantity ++ " -> " ++ toString q),
              u, db.now⟩] _ _ hlt hnd href hinv hfp'
            (by intro mv hmv; rw [List.mem_singleton] at hmv; subst hmv; rfl)
            (by rw [movementSumList_singleton, if_pos rfl]
                simp [applyProductUpdate, huq])
        · simp only [update_product, hfp, hnc', Bool.false_eq_true, if_false, huq,
            if_neg hqe]
          exact wf_update_core db pid upd product [] _ _ hlt hnd href hinv hfp'
            (by simp)
            (by push_neg at hqe
                simp [movementSumList, applyProductUpdate, huq, hqe])

theorem wf_sale (db : DB) (u : Nat) (s : SaleCreate) (hwf : Wf db) :
    Wf (step db (Op.sale u s)) := by
  obtain ⟨hlt, hnd, href, hinv⟩ := hwf
  show Wf (match create_sale db u s with
    | .ok (db', _) => db'
    | .error _ => db)
  cases hc : create_sale db u s with
  | error e => exact ⟨hlt, hnd, href, hinv⟩
  | ok r =>
    obtain ⟨db', sale⟩ := r
    by_cases hne : s.items.isEmpty
    · unfold create_sale at hc
      rw [hne] at hc
      cases hc
    · have hne' : s.items.isEmpty = false := by simpa using hne
      rw [create_sale_eq db u s hne'] at hc
      cases hp : processSaleItems db.nextSaleId u db.now (saleInitDB db u s) 0 s.items with
      | error e =>
        rw [hp] at hc
        cases hc
      | ok pr =>
        obtain ⟨db1, total⟩ := pr
        rw [hp] at hc
        rw [Except.ok.injEq, Prod.mk.injEq] at hc
        obtain ⟨hdb', hsale⟩ := hc
        obtain ⟨sis, mvs, hprodeq, hmov, _, _, _, _, hnpi, _, _, _, _, _, _, hmsum, _,
          hmvmem⟩ := processSaleItems_ok_spec _ _ _ s.items _ _ _ _ hp
        subst hdb'
        have hprodeq' : db1.products = db.products.map
            (fun p => { p with quantity := p.quantity - salesDemand s.items p.id }) :=
          hprodeq
        refine ⟨?_, ?_, ?_, ?_⟩
        · intro p hp1
          have hp2 : p ∈ db1.products := hp1
          rw [hprodeq'] at hp2
          obtain ⟨p0, hp0, hpe⟩ := List.mem_map.mp hp2
          have hl := hlt p0 hp0
          have hn : db1.nextProductId = db.nextProductId := hnpi
          show p.id < db1.nextProductId
          rw [hn, ← hpe]
          exact hl
        · show (db1.products.map (fun p => p.id)).Nodup
          rw [hprodeq',
            map_id_of_preserve
              (fun p => { p with quantity := p.quantity - salesDemand s.items p.id })
              (fun p => rfl) db.products]
          exact hnd
        · intro mv hmv
          have hmv1 : mv ∈ db1.movements := hmv
          have hmov' : db1.movements = db.movements ++ mvs := hmov
          rw [hmov'] at hmv1
          rcases List.mem_append.mp hmv1 with hmv2 | hmv2
          · obtain ⟨p0, hp0, hp0id⟩ := href mv hmv2
            refine ⟨{ p0 with quantity := p0.quantity - salesDemand s.items p0.id },
              ?_, hp0id⟩
            show _ ∈ db1.products
            rw [hprodeq']
            exact List.mem_map_of_mem _ hp0
          · obtain ⟨p0, hp0, hp0id⟩ := hmvmem mv hmv2
            refine ⟨{ p0 with quantity := p0.quantity - salesDemand s.items p0.id },
              ?_, hp0id⟩
            show _ ∈ db1.products
            rw [hprodeq']
            exact List.mem_map_of_mem _ hp0
        · intro p hp1
          have hp2 : p ∈ db1.products := hp1
          rw [hprodeq'] at hp2
          obtain ⟨p0, hp0, hpe⟩ := List.mem_map.mp hp2
          have hbase : p0.quantity = movementSumList db.movements p0.id := hinv p0 hp0
          have h1 : movementSumList db1.movements p0.id =
              movementSumList db.movements p0.id - salesDemand s.items p0.id :=
            hmsum p0.id
          subst hpe
          show p0.quantity - salesDemand s.items p0.id =
            movementSumList db1.movements p0.id
          omega

theorem wf_purchase (db : DB) (u : Nat) (pu : PurchaseCreate) (hwf : Wf db) :
    Wf (step db (Op.purchase u pu)) := by
  obtain ⟨hlt, hnd, href, hinv⟩ := hwf
  show Wf (match create_purchase db u pu with
    | .ok (db', _) => db'
    | .error _ => db)
  cases hc : create_purchase db u pu with
  | error e => exact ⟨hlt, hnd, href, hinv⟩
  | ok r =>
    obtain ⟨db', hdr⟩ := r
    by_cases hne : pu.items.isEmpty
    · unfold create_purchase at hc
      rw [hne] at hc
      cases hc
    · have hne' : pu.items.isEmpty = false := by simpa using hne
      rw [create_purchase_eq db u pu hne'] at hc
      cases hp : processPurchaseItems db.nextPurchaseId u db.now
        (purchaseInitDB db u pu) 0 pu.items with
      | error e =>
        rw [hp] at hc
        cases hc
      | ok pr =>
        obtain ⟨db1, total⟩ := pr
        rw [hp] at hc
        rw [Except.ok.injEq, Prod.mk.injEq] at hc
        obtain ⟨hdb', hhdr⟩ := hc
        obtain ⟨pis, mvs, hprodeq, hmov, _, _, _, _, hnpi, _, _, _, _, _, _, hmsum, _,
          hmvmem⟩ := processPurchaseItems_ok_spec _ _ _ pu.items _ _ _ _ hp
        subst hdb'
        have hprodeq' : db1.products = db.products.map
            (fun p => { p with quantity := p.quantity + purchaseDemand pu.items p.id }) :=
          hprodeq
        refine ⟨?_, ?_, ?_, ?_⟩
        · intro p hp1
          have hp2 : p ∈ db1.products := hp1
          rw [hprodeq'] at hp2
          obtain ⟨p0, hp0, hpe⟩ := List.mem_map.mp hp2
          have hl := hlt p0 hp0
          have hn : db1.nextProductId = db.nextProductId := hnpi
          show p.id < db1.nextProductId
          rw [hn, ← hpe]
          exact hl
        · show (db1.products.map (fun p => p.id)).Nodup
          rw [hprodeq',
            map_id_of_preserve
              (fun p => { p with quantity := p.quantity + purchaseDemand pu.items p.id })
              (fun p => rfl) db.products]
          exact hnd
        · intro mv hmv
          have hmv1 : mv ∈ db1.movements := hmv
          have hmov' : db1.movements = db.movements ++ mvs := hmov
          rw [hmov'] at hmv1
          rcases List.mem_append.mp hmv1 with hmv2 | hmv2
          · obtain ⟨p0, hp0, hp0id⟩ := href mv hmv2
            refine ⟨{ p0 with quantity := p0.quantity + purchaseDemand pu.items p0.id },
              ?_, hp0id⟩
            show _ ∈ db1.products
            rw [hprodeq']
            exact List.mem_map_of_mem _ hp0
          · obtain ⟨p0, hp0, hp0id⟩ := hmvmem mv hmv2
            refine ⟨{ p0 with quantity := p0.quantity + purchaseDemand pu.items p0.id },
              ?_, hp0id⟩
            show _ ∈ db1.products
            rw [hprodeq']
            exact List.mem_map_of_mem _ hp0
        · intro p hp1
          have hp2 : p ∈ db1.products := hp1
          rw [hprodeq'] at hp2
          obtain ⟨p0, hp0, hpe⟩ := List.mem_map.mp hp2
          have hbase : p0.quantity = movementSumList db.movements p0.id := hinv p0 hp0
          have h1 : movementSumList db1.movements p0.id =
              movementSumList db.movements p0.id + purchaseDemand pu.items p0.id :=
            hmsum p0.id
          subst hpe
          show p0.quantity + purchaseDemand pu.items p0.id =
            movementSumList db1.movements p0.id
          omega

/-- Every validated request preserves well-formedness. -/
theorem step_wf (db : DB) (op : Op) (hv : op.valid) (hwf : Wf db) :
    Wf (step db op) := by
  cases op with
  | createProduct u n d pr q => exact wf_createProduct db u n d pr q hv hwf
  | stockMovement u m => exact wf_stockMovement db u m hwf
  | updateProduct u pid upd => exact wf_updateProduct db u pid upd hwf
  | sale u s => exact wf_sale db u s hwf
  | purchase u pu => exact wf_purchase db u pu hwf

theorem run_wf (ops : List Op) :
    ∀ db, (∀ op ∈ ops, op.valid) → Wf db → Wf (run db ops) := by
  induction ops with
  | nil =>
    intro db _ h
    exact h
  | cons op rest ih =>
    intro db hv hwf
    show Wf (run (step db op) rest)
    exact ih _ (fun o ho => hv o (List.mem_cons_of_mem _ ho))
      (step_wf db op (hv op (List.mem_cons_self _ _)) hwf)

/-- C1: starting from an empty store, after every sequence of validated ledger
requests (product creation, signed-delta stock movement, manual adjustment,
sale recording, purchase recording) every product's cached quantity equals the
sum of the `quantity_change` values of its stock movements.  The creation-time
stock is itself recorded as the `inventario_inicial` movement, so the residual
"initial quantity" of the spec's invariant is zero and the invariant reads
`quantity = Σ movement.quantity_change`. -/
theorem cached_quantity_eq_movement_sum (ops : List Op)
    (hv : ∀ op ∈ ops, op.valid) :
    ∀ p ∈ (run DB.empty ops).products,
      p.quantity = movementSum (run DB.empty ops) p.id :=
  (run_wf ops DB.empty hv wf_empty).2.2.2

/-- The concrete request sequence used to witness C1: create a product with
starting stock 3, purchase 4 units, sell 5, then manually adjust to 7. -/
def wops : List Op :=
  [ .createProduct 1 "A" none 10 3
  , .purchase 1 ⟨"prov", none, [⟨1, 4, 2⟩]⟩
  , .sale 1 ⟨none, "efectivo", [⟨1, 5⟩]⟩
  , .updateProduct 1 1 ⟨none, none, none, some 7⟩ ]

/-- Witness for C1: after the `wops` sequence the product's cached quantity is
7 and so is the sum of its movement deltas (3 + 4 − 5 + 5). -/
theorem cached_quantity_eq_movement_sum_witness :
    (∀ op ∈ wops, op.valid) ∧
    (⟨1, "A", none, 10, 7⟩ : Product) ∈ (run DB.empty wops).products ∧
    (7 : Int) = movementSum (run DB.empty wops) 1 := by
  have hv : ∀ op ∈ wops, op.valid := by
    intro op hop
    rcases List.mem_cons.mp hop with h | hop
    · subst h
      show (0 : Int) ≤ 3
      decide
    rcases List.mem_cons.mp hop with h | hop
    · subst h
      show ∀ it ∈ [(⟨1, 4, 2⟩ : PurchaseItemCreate)], 0 < it.quantity
      decide
    rcases List.mem_cons.mp hop with h | hop
    · subst h
      show ∀ it ∈ [(⟨1, 5⟩ : SaleItemCreate)], 0 < it.quantity
      decide
    rcases List.mem_cons.mp hop with h | hop
    · subst h
      show ∀ q : Int, some (7 : Int) = some q → 0 ≤ q
      intro q hq
      injection hq with h7
      omega
    cases hop
  have hmem : (⟨1, "A", none, 10, 7⟩ : Product) ∈ (run DB.empty wops).products := by
    decide
  exact ⟨hv, hmem, cached_quantity_eq_movement_sum wops hv ⟨1, "A", none, 10, 7⟩ hmem⟩

/-! ### C7 — movement/quantity atomicity of product creation -/

/-- Counterexample to C7 as stated: `create_product` issues two separate
commits.  The state committed first (source line 53) already holds the product
row with quantity 2 while no `inventario_inicial` movement exists, so that
quantity update is durable in a unit of work that contains no movement — the
ledger pairing is violated in a committed state. -/
theorem create_product_not_atomic_counterexample :
    create_product_firstCommit DB.empty "Pan" none 1 2 =
      Except.ok ⟨[⟨1, "Pan", none, 1, 2⟩], [], [], [], [], [], 2, 1, 1, 1, 1, 1, 0⟩ ∧
    (⟨1, "Pan", none, 1, 2⟩ : Product) ∈
      (⟨[⟨1, "Pan", none, 1, 2⟩], [], [], [], [], [], 2, 1, 1, 1, 1, 1, 0⟩ : DB).products ∧
    (⟨1, "Pan", none, 1, 2⟩ : Product).quantity ≠
      movementSum ⟨[⟨1, "Pan", none, 1, 2⟩], [], [], [], [], [], 2, 1, 1, 1, 1, 1, 0⟩
        (⟨1, "Pan", none, 1, 2⟩ : Product).id := by
  refine ⟨rfl, by simp, by decide⟩

/-- C7 amended: creating a product with nonzero starting quantity commits the
product row (with its quantity) first and the initial movement in a second,
separate commit.  After the call completes, both the product and exactly one
`inventario_inicial` movement are persisted, but the intermediate committed
state holds the quantity with no movement, so product creation is not a single
atomic unit of work.  (The other quantity-affecting handlers write movement
and quantity in one commit; their pairing is the subject of C1.) -/
theorem create_product_two_commits (db : DB) (u : Nat) (n : String)
    (d : Option String) (pr : ℚ) (q : Int) (hq : 0 < q)
    (hname : db.findProductByName n = none) :
    create_product_firstCommit db n d pr q = Except.ok
      { db with
        products := db.products ++ [⟨db.nextProductId, n, d, pr, q⟩]
        nextProductId := db.nextProductId + 1 } ∧
    create_product db u n d pr q = Except.ok
      ({ db with
        products := db.products ++ [⟨db.nextProductId, n, d, pr, q⟩]
        nextProductId := db.nextProductId + 1
        movements := db.movements ++
          [⟨db.nextMovementId, db.nextProductId, q, "inventario_inicial", none,
            some "Inventario inicial al crear el producto", u, db.now⟩]
        nextMovementId := db.nextMovementId + 1
        now := db.now + 1 },
        ⟨db.nextProductId, n, d, pr, q⟩) := by
  constructor
  · unfold create_product_firstCommit
    rw [hname]
  · unfold create_product
    rw [hname, if_pos hq]

/-- Witness for C7's amended statement at a concrete creation. -/
theorem create_product_two_commits_witness :
    create_product_firstCommit DB.empty "Pan" none 1 2 = Except.ok
      { DB.empty with
        products := DB.empty.products ++ [⟨DB.empty.nextProductId, "Pan", none, 1, 2⟩]
        nextProductId := DB.empty.nextProductId + 1 } ∧
    create_product DB.empty 7 "Pan" none 1 2 = Except.ok
      ({ DB.empty with
        products := DB.empty.products ++ [⟨DB.empty.nextProductId, "Pan", none, 1, 2⟩]
        nextProductId := DB.empty.nextProductId + 1
        movements := DB.empty.movements ++
          [⟨DB.empty.nextMovementId, DB.empty.nextProductId, 2, "inventario_inicial",
            none, some "Inventario inicial al crear el producto", 7, DB.empty.now⟩]
        nextMovementId := DB.empty.nextMovementId + 1
        now := DB.empty.now + 1 },
        ⟨DB.empty.nextProductId, "Pan", none, 1, 2⟩) :=
  create_product_two_commits DB.empty 7 "Pan" none 1 2 (by decide) rfl

/-! ### C9 — stock-movement history query -/

/-- Modelled from the spec: the time-range filtering the spec ascribes to the
history query ("filterable by … time range") — keep exactly the movements
whose timestamp lies in the closed range, most recent first.  The handler
`get_stock_movements` accepts no such parameters; this definition exists to be
compared against the handler. -/
def specTimeRangeQuery (db : DB) (lo hi : Nat) : List StockMovement :=
  List.insertionSort dateDesc
    (db.movements.filter
      (fun m => decide (lo ≤ m.movement_date) && decide (m.movement_date ≤ hi)))

/-- Two movements of the same product and kind recorded at timestamps 1
and 3. -/
def mA : StockMovement := ⟨1, 1, -1, "venta", none, none, 1, 1⟩

/-- See `mA`. -/
def mB : StockMovement := ⟨2, 1, -1, "venta", none, none, 1, 3⟩

/-- A store whose movement history is `[mA, mB]`. -/
def dbHist : DB :=
  ⟨[⟨1, "A", none, 10, 0⟩], [mA, mB], [], [], [], [], 2, 3, 1, 1, 1, 1, 4⟩

theorem filter_pair (p : StockMovement → Bool) (a b : StockMovement)
    (h : p a = p b) :
    List.filter p [a, b] = [] ∨ List.filter p [a, b] = [a, b] := by
  cases hpa : p a with
  | false =>
    left
    have hpb : p b = false := h.symm.trans hpa
    simp [List.filter_cons, List.filter_nil, hpa, hpb]
  | true =>
    right
    have hpb : p b = true := h.symm.trans hpa
    simp [List.filter_cons, List.filter_nil, hpa, hpb]

/-- Counterexample to C9 as stated: the history query's filtering stage cannot
express a time range.  On `dbHist` — both movements share product id and kind,
only their timestamps differ — no choice of the handler's two filter
parameters produces the movements of the range `[3, 3]` (namely `[mB]`): every
filter outcome is `[]` or both movements. -/
theorem get_stock_movements_no_time_filter :
    ¬ ∃ (product_id : Option Nat) (movement_type : Option String),
      stockMovementsQuery dbHist product_id movement_type =
        specTimeRangeQuery dbHist 3 3 := by
  rintro ⟨pid, mt, h⟩
  have hR : specTimeRangeQuery dbHist 3 3 = [mB] := rfl
  rw [hR] at h
  have hunf : stockMovementsQuery dbHist pid mt =
      List.insertionSort dateDesc
        (if truthyStr mt then
          (if truthyNat pid then
            dbHist.movements.filter (fun m => m.product_id == pid.getD 0)
          else dbHist.movements).filter (fun m => m.movement_type == mt.getD "")
        else
          (if truthyNat pid then
            dbHist.movements.filter (fun m => m.product_id == pid.getD 0)
          else dbHist.movements)) := rfl
  rw [hunf] at h
  have h1 : (if truthyNat pid then
      dbHist.movements.filter (fun m => m.product_id == pid.getD 0)
    else dbHist.movements) = [] ∨
    (if truthyNat pid then
      dbHist.movements.filter (fun m => m.product_id == pid.getD 0)
    else dbHist.movements) = [mA, mB] := by
    by_cases ht : truthyNat pid
    · rw [if_pos ht]
      exact filter_pair (fun m => m.product_id == pid.getD 0) mA mB rfl
    · rw [if_neg ht]
      right
      rfl
  have hBA : List.insertionSort dateDesc [mA, mB] = [mB, mA] := rfl
  rcases h1 with h1 | h1 <;> rw [h1] at h
  · by_cases ht2 : truthyStr mt
    · rw [if_pos ht2] at h
      simp at h
    · rw [if_neg ht2] at h
      simp at h
  · by_cases ht2 : truthyStr mt
    · rw [if_pos ht2] at h
      rcases filter_pair (fun m => m.movement_type == mt.getD "") mA mB rfl with hf | hf <;>
        rw [hf] at h
      · simp at h
      · rw [hBA] at h
        simp [mA, mB] at h
    · rw [if_neg ht2] at h
      rw [hBA] at h
      simp [mA, mB] at h

/-- C9 amended: the history query filters by product id and movement kind (the
handler accepts no time-range parameter — see the counterexample), returns the
movements ordered by movement timestamp descending, and paginates via
offset/limit; adjacent pages concatenate to one contiguous slice of the
ordered result, so no record is duplicated or lost across page boundaries when
no new data is written. -/
theorem get_stock_movements_spec (db : DB) (product_id : Option Nat)
    (movement_type : Option String) (skip l1 l2 : Nat)
    (hl1 : 1 ≤ l1) (hl1' : l1 ≤ 100) :
    List.Pairwise (fun a b => b.movement_date ≤ a.movement_date)
      (stockMovementsQuery db product_id movement_type) ∧
    (∀ m, m ∈ stockMovementsQuery db product_id movement_type ↔
      (m ∈ db.movements ∧
        (truthyNat product_id → m.product_id = product_id.getD 0) ∧
        (truthyStr movement_type → m.movement_type = movement_type.getD ""))) ∧
    get_stock_movements db product_id movement_type skip l1 =
      ((stockMovementsQuery db product_id movement_type).drop skip).take l1 ∧
    get_stock_movements db product_id movement_type skip l1 ++
      get_stock_movements db product_id movement_type (skip + l1) l2 =
      ((stockMovementsQuery db product_id movement_type).drop skip).take (l1 + l2) := by
  refine ⟨?_, ?_, rfl, ?_⟩
  · exact List.sorted_insertionSort dateDesc
      (if truthyStr movement_type then
        (if truthyNat product_id then
          db.movements.filter (fun m => m.product_id == product_id.getD 0)
        else db.movements).filter (fun m => m.movement_type == movement_type.getD "")
      else
        (if truthyNat product_id then
          db.movements.filter (fun m => m.product_id == product_id.getD 0)
        else db.movements))
  · intro m
    show m ∈ List.insertionSort dateDesc (_ : List StockMovement) ↔ _
    rw [(List.perm_insertionSort dateDesc _).mem_iff]
    by_cases h1 : truthyNat product_id <;> by_cases h2 : truthyStr movement_type <;>
      simp [h1, h2, List.mem_filter, and_assoc] <;> tauto
  · show ((_ : List StockMovement).drop skip).take l1 ++
      ((_ : List StockMovement).drop (skip + l1)).take l2 = _
    rw [List.take_add, ← List.drop_drop]

/-- Witness for C9's amended statement: one-element pages of `dbHist`'s
product-1 history.  Page 0 is `[mB]`, page 1 is `[mA]`, and together they are
the full descending history with nothing duplicated or lost. -/
theorem get_stock_movements_spec_witness :
    (List.Pairwise (fun a b => b.movement_date ≤ a.movement_date)
      (stockMovementsQuery dbHist (some 1) none) ∧
    (∀ m, m ∈ stockMovementsQuery dbHist (some 1) none ↔
      (m ∈ dbHist.movements ∧
        (truthyNat (some 1) → m.product_id = (some 1).getD 0) ∧
        (truthyStr none → m.movement_type = (Option.getD none "")))) ∧
    get_stock_movements dbHist (some 1) none 0 1 =
      ((stockMovementsQuery dbHist (some 1) none).drop 0).take 1 ∧
    get_stock_movements dbHist (some 1) none 0 1 ++
      get_stock_movements dbHist (some 1) none (0 + 1) 1 =
      ((stockMovementsQuery dbHist (some 1) none).drop 0).take (1 + 1)) ∧
    get_stock_movements dbHist (some 1) none 0 1 = [mB] ∧
    get_stock_movements dbHist (some 1) none 1 1 = [mA] := by
  refine ⟨get_stock_movements_spec dbHist (some 1) none 0 1 1 (by decide) (by decide),
    rfl, rfl⟩

end Doeat
